import Mathlib

/-!
Verification of the API-key policy normalization/serialization layer of the
Cli-Proxy-API-Management-Center repository
(`src/services/api/apiKeyPolicies.ts`).

The TypeScript code parses loosely-typed JSON wire values into a strict
`ApiKeyPolicy` shape (`normalizePolicy`) and serializes that shape back to the
wire DTO (`toDTO`).  We shallowly embed the JavaScript value universe as the
inductive `JsValue`, with JavaScript numbers modelled as rationals extended
with `NaN`, `+Infinity` and `-Infinity` (`JsNum`).  The modelled JavaScript
primitive operations (`String(...)`, `Number(...)`, `trim`, `toLowerCase`,
truthiness, `Math.floor/min/max`, `encodeURIComponent`) follow the ECMAScript
definitions restricted to this rational number model; decimal `ToString` /
`ToNumber` conversions are exact on the values the code manipulates since no
floating-point rounding arithmetic occurs in the source file.
-/

/-- JavaScript numbers: a rational (the exact value of the double, adequate
here because the source performs no rounding arithmetic), or one of the
special values `NaN`, `+Infinity`, `-Infinity`. -/
inductive JsNum where
  | finite (q : ℚ)
  | nan
  | posInf
  | negInf
deriving DecidableEq, Repr

namespace JsNum

/-- `Number.isFinite`. -/
def isFinite : JsNum → Bool
  | finite _ => true
  | _ => false

/-- JavaScript `>` comparison against `0` (false on `NaN`). -/
def gtZero : JsNum → Bool
  | finite q => decide (0 < q)
  | posInf => true
  | _ => false

/-- JavaScript `<=` comparison between a number and `0` (false on `NaN`). -/
def leZero : JsNum → Bool
  | finite q => decide (q ≤ 0)
  | negInf => true
  | _ => false

/-- `Math.floor`: floors finite values, propagates `NaN` and infinities. -/
def floor : JsNum → JsNum
  | finite q => finite (⌊q⌋ : ℤ)
  | n => n

/-- `Math.min x c` for a numeric constant `c` (NaN-propagating). -/
def minC (x : JsNum) (c : ℚ) : JsNum :=
  match x with
  | finite q => finite (min q c)
  | nan => nan
  | posInf => finite c
  | negInf => negInf

/-- `Math.max x c` for a numeric constant `c` (NaN-propagating). -/
def maxC (x : JsNum) (c : ℚ) : JsNum :=
  match x with
  | finite q => finite (max q c)
  | nan => nan
  | posInf => posInf
  | negInf => finite c

/-- Truthiness of a number: `0` and `NaN` are falsy. -/
def truthy : JsNum → Bool
  | finite q => decide (q ≠ 0)
  | nan => false
  | _ => true

end JsNum

/-- The JavaScript value universe as it appears in this code: `null`,
`undefined`, booleans, numbers, strings, arrays and plain objects (ordered
field lists with distinct keys, iteration order = insertion order). -/
inductive JsValue where
  | vnull
  | vundef
  | vbool (b : Bool)
  | vnum (n : JsNum)
  | vstr (s : String)
  | varr (elems : List JsValue)
  | vobj (fields : List (String × JsValue))
deriving Repr

namespace JsValue

/-- JavaScript truthiness (`Boolean(v)` / `!v` negated). -/
def truthy : JsValue → Bool
  | vnull => false
  | vundef => false
  | vbool b => b
  | vnum n => n.truthy
  | vstr s => !s.isEmpty
  | varr _ => true
  | vobj _ => true

/-- `typeof v === 'object'` (true for `null`, arrays and objects). -/
def typeofIsObject : JsValue → Bool
  | vnull => true
  | varr _ => true
  | vobj _ => true
  | _ => false

/-- `Array.isArray`. -/
def isArr : JsValue → Bool
  | varr _ => true
  | _ => false

/-- The guard `raw && typeof raw === 'object' && !Array.isArray(raw)` used
throughout the source: holds exactly for plain (non-array, non-null)
objects. -/
def isPlainObject : JsValue → Bool
  | vobj _ => true
  | _ => false

/-- Property read `v[k]` on a plain object (absent key yields `undefined`);
the source only reads properties after an `isPlainObject`-shaped guard. -/
def getField : JsValue → String → JsValue
  | vobj fields, k => (fields.lookup k).getD vundef
  | _, _ => vundef

/-- Nullish coalescing `a ?? b`. -/
def nullish : JsValue → JsValue → JsValue
  | vnull, b => b
  | vundef, b => b
  | a, _ => a

end JsValue

/-! ### Modelled ECMAScript string primitives -/

/-- Whitespace recognised by `String.prototype.trim` / `ToNumber` (the
characters that can occur in this code's inputs). -/
def isJsWhitespace (c : Char) : Bool :=
  c = ' ' || c = '\t' || c = '\n' || c = '\r' ||
  c = Char.ofNat 0x0b || c = Char.ofNat 0x0c || c = Char.ofNat 0xa0 ||
  c = Char.ofNat 0xfeff

/-- `trim` on character lists: drop leading and trailing whitespace. -/
def jsTrimList (l : List Char) : List Char :=
  ((l.dropWhile isJsWhitespace).reverse.dropWhile isJsWhitespace).reverse

/-- `String.prototype.trim`. -/
def jsTrim (s : String) : String := String.mk (jsTrimList s.toList)

/-- `String.prototype.toLowerCase`, on the ASCII range the policies use. -/
def jsCharLower (c : Char) : Char :=
  if 'A' ≤ c && c ≤ 'Z' then Char.ofNat (c.toNat + 32) else c

/-- `toLowerCase` on strings. -/
def jsToLower (s : String) : String := String.mk (s.toList.map jsCharLower)

/-- Decimal expansion of a proper fraction `num/den` (`num < den`), up to
`fuel` digits; exact whenever the expansion terminates, which covers every
value `ToNumber` can produce. -/
def fracDigits : ℕ → ℕ → ℕ → List Char
  | 0, _, _ => []
  | _ + 1, 0, _ => []
  | fuel + 1, num, den =>
    Char.ofNat (48 + num * 10 / den) :: fracDigits fuel (num * 10 % den) den

/-- Decimal rendering of a rational, modelling ECMAScript number `ToString`
on the exactly-representable values this code handles. -/
def ratToString (q : ℚ) : String :=
  let sign := if q < 0 then "-" else ""
  let n := q.num.natAbs
  let ip := n / q.den
  let fr := n % q.den
  if fr = 0 then sign ++ toString ip
  else sign ++ toString ip ++ "." ++ String.mk (fracDigits 1000 fr q.den)

/-- `String(n)` for a JavaScript number. -/
def numToString : JsNum → String
  | .finite q => ratToString q
  | .nan => "NaN"
  | .posInf => "Infinity"
  | .negInf => "-Infinity"

/-- Value of a decimal digit character. -/
def digitVal (c : Char) : Option ℕ :=
  if '0' ≤ c && c ≤ '9' then some (c.toNat - 48) else none

/-- Value of a digit character in base `b ∈ {2, 8, 16}`. -/
def radixDigitVal (b : ℕ) (c : Char) : Option ℕ :=
  match digitVal c with
  | some d => if d < b then some d else none
  | none =>
    if b = 16 && 'a' ≤ c && c ≤ 'f' then some (c.toNat - 87)
    else if b = 16 && 'A' ≤ c && c ≤ 'F' then some (c.toNat - 55)
    else none

/-- Split a maximal run of decimal digits from the front of `l`. -/
def splitDigits : List Char → List ℕ × List Char
  | [] => ([], [])
  | c :: rest =>
    match digitVal c with
    | some d => let p := splitDigits rest; (d :: p.1, p.2)
    | none => ([], c :: rest)

/-- Value of a digit list, most significant first. -/
def natOfDigits (ds : List ℕ) : ℕ := ds.foldl (fun a d => a * 10 + d) 0

/-- Parse the exponent suffix of a decimal literal (empty, or `e`/`E` with an
optional sign and at least one digit, consuming the whole rest). -/
def parseExpPart : List Char → Option ℤ
  | [] => some 0
  | c :: rest =>
    if c = 'e' || c = 'E' then
      match rest with
      | '+' :: r =>
        (match splitDigits r with
         | (ds, []) => if ds.isEmpty then none else some (natOfDigits ds)
         | _ => none)
      | '-' :: r =>
        (match splitDigits r with
         | (ds, []) => if ds.isEmpty then none else some (-(natOfDigits ds : ℤ))
         | _ => none)
      | r =>
        (match splitDigits r with
         | (ds, []) => if ds.isEmpty then none else some (natOfDigits ds)
         | _ => none)
    else none

/-- Parse a decimal literal body `digits [. digits] [exponent]` with the given
sign, producing the exact rational `sgn · mantissa · 10 ^ (exponent - #fraction
digits)` (built with `mkRat` over integer arithmetic). -/
def parseDecBody (sgn : ℤ) (l : List Char) : Option ℚ :=
  let p1 := splitDigits l
  let p2 : List ℕ × List Char :=
    match p1.2 with
    | '.' :: r => splitDigits r
    | r => ([], r)
  if p1.1.isEmpty && p2.1.isEmpty then none
  else
    match parseExpPart p2.2 with
    | none => none
    | some e =>
      let sc : ℤ := e - p2.1.length
      let m : ℤ := sgn * (natOfDigits (p1.1 ++ p2.1) : ℤ)
      some (if 0 ≤ sc then mkRat (m * 10 ^ sc.toNat) 1 else mkRat m (10 ^ (-sc).toNat))

/-- Parse a whole digit run in base `b`, requiring it to be non-empty and to
consume the entire input. -/
def parseRadixDigits (b : ℕ) : List Char → Option ℕ
  | [] => none
  | [c] => radixDigitVal b c
  | c :: rest =>
    match radixDigitVal b c, parseRadixDigits b rest with
    | some d, some n =>
      some (d * b ^ (rest.length) + n)
    | _, _ => none

/-- `Number(s)` for strings: ECMAScript `StringToNumber` over the rational
model (whitespace-trimmed; empty → `0`; signed decimal with optional fraction
and exponent; `Infinity`; `0x`/`0o`/`0b` radix literals; anything else →
`NaN`). -/
def strToNum (s : String) : JsNum :=
  let t := jsTrimList s.toList
  match t with
  | [] => .finite 0
  | '0' :: 'x' :: r => (parseRadixDigits 16 r).elim .nan (fun n => .finite (mkRat n 1))
  | '0' :: 'X' :: r => (parseRadixDigits 16 r).elim .nan (fun n => .finite (mkRat n 1))
  | '0' :: 'o' :: r => (parseRadixDigits 8 r).elim .nan (fun n => .finite (mkRat n 1))
  | '0' :: 'O' :: r => (parseRadixDigits 8 r).elim .nan (fun n => .finite (mkRat n 1))
  | '0' :: 'b' :: r => (parseRadixDigits 2 r).elim .nan (fun n => .finite (mkRat n 1))
  | '0' :: 'B' :: r => (parseRadixDigits 2 r).elim .nan (fun n => .finite (mkRat n 1))
  | _ =>
    let sb : ℤ × List Char :=
      match t with
      | '+' :: r => (1, r)
      | '-' :: r => (-1, r)
      | r => (1, r)
    if sb.2 = ['I', 'n', 'f', 'i', 'n', 'i', 't', 'y'] then
      if sb.1 = 1 then .posInf else .negInf
    else
      match parseDecBody sb.1 sb.2 with
      | some q => .finite q
      | none => .nan

mutual

/-- Stringification of an array element inside `Array.prototype.toString`
(where `null`/`undefined` render as the empty string). -/
def arrElemString : JsValue → String
  | .vnull => ""
  | .vundef => ""
  | .vbool b => if b then "true" else "false"
  | .vnum n => numToString n
  | .vstr s => s
  | .varr xs => arrToString xs
  | .vobj _ => "[object Object]"

/-- `Array.prototype.toString` (= `join(',')`). -/
def arrToString : List JsValue → String
  | [] => ""
  | [x] => arrElemString x
  | x :: y :: xs => arrElemString x ++ "," ++ arrToString (y :: xs)

end

/-- `String(v)`. -/
def jsToString : JsValue → String
  | .vnull => "null"
  | .vundef => "undefined"
  | .vbool b => if b then "true" else "false"
  | .vnum n => numToString n
  | .vstr s => s
  | .varr xs => arrToString xs
  | .vobj _ => "[object Object]"

/-- Characters `encodeURIComponent` leaves unescaped. -/
def isUriUnreserved (c : Char) : Bool :=
  ('A' ≤ c && c ≤ 'Z') || ('a' ≤ c && c ≤ 'z') || ('0' ≤ c && c ≤ '9') ||
  c = '-' || c = '_' || c = '.' || c = '!' || c = '~' || c = '*' ||
  c = Char.ofNat 39 || c = '(' || c = ')'

/-- Upper-case hexadecimal digit. -/
def hexDigitChar (n : ℕ) : Char :=
  if n < 10 then Char.ofNat (48 + n) else Char.ofNat (55 + n)

/-- Percent-escape of one byte. -/
def byteToPercent (b : UInt8) : String :=
  String.mk ['%', hexDigitChar (b.toNat / 16), hexDigitChar (b.toNat % 16)]

/-- `encodeURIComponent`: unreserved characters pass through, every other
character is UTF-8 encoded and percent-escaped. -/
def encodeURIComponent (s : String) : String :=
  s.toList.foldl
    (fun acc c =>
      if isUriUnreserved c then acc.push c
      else acc ++ String.join (((String.singleton c).toUTF8.toList).map byteToPercent))
    ""

/-! ### The policy data model (`apiKeyPolicies.ts` interfaces) -/

/-- `interface ModelFailoverRule`. -/
structure ModelFailoverRule where
  fromModel : String
  targetModel : String
deriving DecidableEq, Repr

/-- `interface ModelRoutingRule` (the `number` fields keep the full
JavaScript number type). -/
structure ModelRoutingRule where
  enabled : Bool
  fromModel : String
  targetModel : String
  targetPercent : JsNum
  stickyWindowSeconds : JsNum
deriving DecidableEq, Repr

/-- `interface ApiKeyPolicy`; `dailyLimits : Record<string, number>` is an
insertion-ordered field list. -/
structure ApiKeyPolicy where
  apiKey : String
  upstreamBaseUrl : String
  excludedModels : List String
  allowClaudeOpus46 : Bool
  dailyLimits : List (String × JsNum)
  modelRoutingRules : List ModelRoutingRule
  claudeFailoverEnabled : Bool
  claudeFailoverTargetModel : String
  claudeFailoverRules : List ModelFailoverRule
deriving DecidableEq, Repr

/-! ### normalizePolicy -/

/-- JavaScript object property write `o[k] = v`: an existing key keeps its
position and gets the new value, a fresh key is appended. -/
def objInsert {α : Type} (l : List (String × α)) (k : String) (v : α) :
    List (String × α) :=
  match l with
  | [] => [(k, v)]
  | (k', v') :: rest =>
    if k' = k then (k, v) :: rest else (k', v') :: objInsert rest k v

/-- The recurring `String(x ?? '')` pattern. -/
def strOfNullish (v : JsValue) : String := jsToString (v.nullish (.vstr ""))

/-- `typeof v === 'number' ? v : Number(String(v))` (daily-limit values). -/
def coerceNum (v : JsValue) : JsNum :=
  match v with
  | .vnum n => n
  | v => strToNum (jsToString v)

/-- `typeof v === 'number' ? v : Number(String(v ?? ''))` (routing-rule
numeric fields). -/
def coerceNumNC (v : JsValue) : JsNum :=
  match v with
  | .vnum n => n
  | v => strToNum (strOfNullish v)

/-- `typeof v === 'boolean' ? v : v == null ? true : Boolean(v)`. -/
def boolOrTrue (v : JsValue) : Bool :=
  match v with
  | .vbool b => b
  | .vnull => true
  | .vundef => true
  | v => v.truthy

/-- `typeof v === 'boolean' ? v : Boolean(v)`. -/
def boolCoerce (v : JsValue) : Bool :=
  match v with
  | .vbool b => b
  | v => v.truthy

/-- One step of the `daily-limits` loop body (lines 76–80 of the source). -/
def dailyLimitStep (acc : List (String × JsNum)) (e : String × JsValue) :
    List (String × JsNum) :=
  let key := jsToLower (jsTrim e.1)
  let num := coerceNum e.2
  if key ≠ "" ∧ num.isFinite ∧ num.gtZero then objInsert acc key num.floor else acc

/-- The `daily-limits` normalization loop. -/
def buildDailyLimits (entries : List (String × JsValue)) : List (String × JsNum) :=
  entries.foldl dailyLimitStep []

/-- `excluded.map(m => String(m).trim()).filter(Boolean)` when the field is an
array, `[]` otherwise. -/
def normalizeExcluded (v : JsValue) : List String :=
  match v with
  | .varr xs => (xs.map (fun m => jsTrim (jsToString m))).filter (fun s => !s.isEmpty)
  | _ => []

/-- The failover-rule entry mapper (source lines 98–105; the subsequent
`.filter(Boolean)` is the `Option` discard). -/
def parseFailoverRule (r : JsValue) : Option ModelFailoverRule :=
  if ¬ r.isPlainObject then none
  else
    let fromModel := jsTrim (strOfNullish (r.getField "from-model"))
    let targetModel := jsTrim (strOfNullish (r.getField "target-model"))
    if fromModel = "" ∨ targetModel = "" then none
    else some ⟨fromModel, targetModel⟩

/-- The routing-rule entry mapper (source lines 120–139). -/
def parseRoutingRule (r : JsValue) : Option ModelRoutingRule :=
  if ¬ r.isPlainObject then none
  else
    let enabled := boolOrTrue (r.getField "enabled")
    let fromModel := jsTrim (strOfNullish (r.getField "from-model"))
    let targetModel := jsTrim (strOfNullish (r.getField "target-model"))
    let percentNum := coerceNumNC (r.getField "target-percent")
    let targetPercent : JsNum :=
      if percentNum.isFinite then (percentNum.floor.minC 100).maxC 0 else .finite 0
    let windowNum := coerceNumNC (r.getField "sticky-window-seconds")
    let stickyWindowSeconds : JsNum :=
      if windowNum.isFinite ∧ windowNum.gtZero then windowNum.floor else .finite 3600
    if fromModel = "" ∨ targetModel = "" then none
    else some ⟨enabled, fromModel, targetModel, targetPercent, stickyWindowSeconds⟩

/-- The `failover.claude` block (source lines 83–109): returns
`(claudeFailoverEnabled, claudeFailoverTargetModel before defaulting,
claudeFailoverRules)`. -/
def normalizeFailover (v : JsValue) : Bool × String × List ModelFailoverRule :=
  if v.isPlainObject then
    let claudeRaw := v.getField "claude"
    if claudeRaw.isPlainObject then
      let enabled := boolCoerce (claudeRaw.getField "enabled")
      let target := jsTrim (strOfNullish (claudeRaw.getField "target-model"))
      let rules :=
        match claudeRaw.getField "rules" with
        | .varr rs => rs.filterMap parseFailoverRule
        | _ => []
      (enabled, target, rules)
    else (false, "", [])
  else (false, "", [])

/-- The `model-routing` block (source lines 114–142). -/
def normalizeRouting (v : JsValue) : List ModelRoutingRule :=
  if v.isPlainObject then
    match v.getField "rules" with
    | .varr rs => rs.filterMap parseRoutingRule
    | _ => []
  else []

/-- The fixed fallback model id used when failover is enabled without a
target. -/
def defaultFailoverTarget : String := "gpt-5.2(high)"

/-- `normalizePolicy` (source lines 55–155). -/
def normalizePolicy (raw : JsValue) : Option ApiKeyPolicy :=
  if ¬ raw.isPlainObject then none
  else
    let apiKey := jsTrim (strOfNullish (raw.getField "api-key"))
    if apiKey = "" then none
    else
      let upstreamRaw := raw.getField "upstream-base-url"
      let upstreamBaseUrl :=
        match upstreamRaw with
        | .vnull => ""
        | .vundef => ""
        | v => jsTrim (jsToString v)
      let excludedModels := normalizeExcluded (raw.getField "excluded-models")
      let allowClaudeOpus46 := boolOrTrue (raw.getField "allow-claude-opus-4-6")
      let dailyLimits :=
        match raw.getField "daily-limits" with
        | .vobj entries => buildDailyLimits entries
        | _ => []
      let fo := normalizeFailover (raw.getField "failover")
      let claudeFailoverTargetModel :=
        if fo.1 ∧ fo.2.1 = "" then defaultFailoverTarget else fo.2.1
      let modelRoutingRules := normalizeRouting (raw.getField "model-routing")
      some { apiKey := apiKey
             upstreamBaseUrl := upstreamBaseUrl
             excludedModels := excludedModels
             allowClaudeOpus46 := allowClaudeOpus46
             dailyLimits := dailyLimits
             modelRoutingRules := modelRoutingRules
             claudeFailoverEnabled := fo.1
             claudeFailoverTargetModel := claudeFailoverTargetModel
             claudeFailoverRules := fo.2.2 }

/-! ### toDTO

`toDTO` takes a typed `ApiKeyPolicy`, so its defensive `typeof`/`??` branches
are resolved by the interface types: `enabled` is a boolean, the numeric
fields are numbers (hence the `typeof r?.targetPercent === 'number'` branch is
taken), and `String(x ?? '').trim()` on a string is `trim`. -/

/-- `Math.max(0, Math.min(100, Math.floor(p)))` (source lines 164–167). -/
def clampPercentDTO (p : JsNum) : JsNum := (p.floor.minC 100).maxC 0

/-- `Math.max(1, Math.floor(s))` (source lines 168–171). -/
def clampStickyDTO (s : JsNum) : JsNum := s.floor.maxC 1

/-- The routing-rule serializer (source lines 160–172). -/
def routingRuleToDTO (r : ModelRoutingRule) : JsValue :=
  .vobj [("enabled", .vbool r.enabled),
         ("from-model", .vstr (jsTrim r.fromModel)),
         ("target-model", .vstr (jsTrim r.targetModel)),
         ("target-percent", .vnum (clampPercentDTO r.targetPercent)),
         ("sticky-window-seconds", .vnum (clampStickyDTO r.stickyWindowSeconds))]

/-- The failover-rule serializer (source lines 178–181). -/
def failoverRuleToDTO (r : ModelFailoverRule) : JsValue :=
  .vobj [("from-model", .vstr (jsTrim r.fromModel)),
         ("target-model", .vstr (jsTrim r.targetModel))]

/-- The `.filter((r) => r['from-model'] && r['target-model'])` predicate on a
freshly serialized rule object. -/
def dtoRuleKept (d : JsValue) : Bool :=
  (d.getField "from-model").truthy && (d.getField "target-model").truthy

/-- `toDTO` (source lines 157–200), emitting the wire object. -/
def toDTO (policy : ApiKeyPolicy) : JsValue :=
  let routingRules := (policy.modelRoutingRules.map routingRuleToDTO).filter dtoRuleKept
  let rules := (policy.claudeFailoverRules.map failoverRuleToDTO).filter dtoRuleKept
  .vobj [("api-key", .vstr policy.apiKey),
         ("upstream-base-url", .vstr (jsTrim policy.upstreamBaseUrl)),
         ("excluded-models", .varr (policy.excludedModels.map JsValue.vstr)),
         ("allow-claude-opus-4-6", .vbool policy.allowClaudeOpus46),
         ("daily-limits", .vobj (policy.dailyLimits.map (fun e => (e.1, JsValue.vnum e.2)))),
         ("model-routing", .vobj [("rules", .varr routingRules)]),
         ("failover", .vobj [("claude", .vobj
            [("enabled", .vbool policy.claudeFailoverEnabled),
             ("target-model", .vstr (jsTrim policy.claudeFailoverTargetModel)),
             ("rules", .varr rules)])])]

/-! ### apiKeyPoliciesApi.remove -/

/-- `remove(apiKey)` (source lines 219–223), modelled as the DELETE request it
issues: `none` means no network call, `some url` means exactly one DELETE to
`url`. -/
def removeRequest (apiKey : JsValue) : Option String :=
  let key := jsTrim (strOfNullish apiKey)
  if key = "" then none
  else some ("/api-key-policies?api-key=" ++ encodeURIComponent key)

/-! ### Inversion of `normalizePolicy` -/

/-- The value `upstreamBaseUrl` gets (source lines 61–62). -/
def upstreamOf (raw : JsValue) : String :=
  match raw.getField "upstream-base-url" with
  | .vnull => ""
  | .vundef => ""
  | v => jsTrim (jsToString v)

/-- The value `dailyLimits` gets (source lines 73–81). -/
def dailyLimitsOf (raw : JsValue) : List (String × JsNum) :=
  match raw.getField "daily-limits" with
  | .vobj entries => buildDailyLimits entries
  | _ => []

/-! ### The rule arrays inside an emitted DTO -/

/-- The `model-routing.rules` array of a DTO. -/
def dtoRoutingRulesOf (dto : JsValue) : List JsValue :=
  match (dto.getField "model-routing").getField "rules" with
  | .varr l => l
  | _ => []

/-- The `failover.claude.rules` array of a DTO. -/
def dtoFailoverRulesOf (dto : JsValue) : List JsValue :=
  match ((dto.getField "failover").getField "claude").getField "rules" with
  | .varr l => l
  | _ => []

/-- Concrete input for the C3 witness: one good failover rule, one good
routing rule, plus a malformed entry. -/
def c3raw : JsValue :=
  .vobj [("api-key", .vstr "k"),
         ("failover", .vobj [("claude", .vobj
            [("enabled", .vbool true), ("target-model", .vstr "z"),
             ("rules", .varr [.vobj [("from-model", .vstr "x"),
                                     ("target-model", .vstr "y")],
                              .vstr "bad"])])])]

/-- The policy `normalizePolicy` produces on `c3raw`. -/
def c3P : ApiKeyPolicy :=
  { apiKey := "k", upstreamBaseUrl := "", excludedModels := [],
    allowClaudeOpus46 := true, dailyLimits := [], modelRoutingRules := [],
    claudeFailoverEnabled := true, claudeFailoverTargetModel := "z",
    claudeFailoverRules := [⟨"x", "y"⟩] }

/-- Input for the C4/C5 witnesses: a routing rule with the given
`target-percent` and `sticky-window-seconds` wire values. -/
def mkRoutingEntry (p w : JsValue) : JsValue :=
  .vobj [("from-model", .vstr "a"), ("target-model", .vstr "b"),
         ("target-percent", p), ("sticky-window-seconds", w)]

/-- Input for the C7 witness: failover enabled with no target model. -/
def c7raw : JsValue :=
  .vobj [("api-key", .vstr "k"),
         ("failover", .vobj [("claude", .vobj [("enabled", .vbool true)])])]

/-- The policy `normalizePolicy` produces on `c7raw`. -/
def c7P : ApiKeyPolicy :=
  { apiKey := "k", upstreamBaseUrl := "", excludedModels := [],
    allowClaudeOpus46 := true, dailyLimits := [], modelRoutingRules := [],
    claudeFailoverEnabled := true, claudeFailoverTargetModel := "gpt-5.2(high)",
    claudeFailoverRules := [] }

/-- Input for the C9 witness: arrays containing both accepted and dropped
entries. -/
def c9raw : JsValue :=
  .vobj [("api-key", .vstr "k"),
         ("excluded-models", .varr [.vstr " a ", .vstr "  ", .vstr "b"]),
         ("model-routing", .vobj [("rules", .varr
            [.vobj [("from-model", .vstr "f"), ("target-model", .vstr "t")],
             .vobj [("from-model", .vstr "f2")]])])]

/-- The policy `normalizePolicy` produces on `c9raw`. -/
def c9P : ApiKeyPolicy :=
  { apiKey := "k", upstreamBaseUrl := "", excludedModels := ["a", "b"],
    allowClaudeOpus46 := true, dailyLimits := [],
    modelRoutingRules := [⟨true, "f", "t", .finite 0, .finite 3600⟩],
    claudeFailoverEnabled := false, claudeFailoverTargetModel := "",
    claudeFailoverRules := [] }

/-! ### C6: the daily-limits map -/

/-- The loop guard of the `daily-limits` normalization, as a predicate on one
entry: non-empty normalized key, finite coerced value, value `> 0`. -/
def dailyLimitAccepted (e : String × JsValue) : Bool :=
  !(jsToLower (jsTrim e.1)).isEmpty && (coerceNum e.2).isFinite && (coerceNum e.2).gtZero

/-- The claim's description of the final map ("last write in iteration order
wins"): the value under key `k` is the floored coerced value of the last
accepted entry whose trimmed lower-cased key is `k`. -/
def dailyLimitsSpec (entries : List (String × JsValue)) (k : String) : Option JsNum :=
  ((entries.filter
      (fun e => dailyLimitAccepted e && (jsToLower (jsTrim e.1) == k))).getLast?).map
    (fun e => (coerceNum e.2).floor)

/-- The predicate selecting the entries the claim's "last write wins" spec
keeps for key `k`. -/
def dlKeyPred (k : String) (e : String × JsValue) : Bool :=
  dailyLimitAccepted e && (jsToLower (jsTrim e.1) == k)

/-- Entries for the C6 witness: two keys that lower-case to the same key. -/
def c6entries : List (String × JsValue) :=
  [("Claude-Opus-4-6", .vnum (.finite 5)), ("claude-opus-4-6", .vnum (.finite 7))]

/-- The C1 counterexample policy: its (absent) rules are trivially
well-formed, but one `excludedModels` entry carries surrounding blanks, which
one serialize–normalize pass strips. -/
def c1P : ApiKeyPolicy :=
  { apiKey := "k", upstreamBaseUrl := "", excludedModels := [" a "],
    allowClaudeOpus46 := true, dailyLimits := [], modelRoutingRules := [],
    claudeFailoverEnabled := false, claudeFailoverTargetModel := "",
    claudeFailoverRules := [] }

/-- What `normalizePolicy` makes of `toDTO c1P` (the excluded model is
trimmed). -/
def c1Q : ApiKeyPolicy :=
  { apiKey := "k", upstreamBaseUrl := "", excludedModels := ["a"],
    allowClaudeOpus46 := true, dailyLimits := [], modelRoutingRules := [],
    claudeFailoverEnabled := false, claudeFailoverTargetModel := "",
    claudeFailoverRules := [] }

/-- The normal form a failover rule reaches after one serialize–normalize
pass (trimmed fields; dropped if either trims to empty). -/
def canonFailoverRule (r : ModelFailoverRule) : Option ModelFailoverRule :=
  if jsTrim r.fromModel = "" ∨ jsTrim r.targetModel = "" then none
  else some ⟨jsTrim r.fromModel, jsTrim r.targetModel⟩

/-- The normal form a routing rule reaches after one serialize–normalize
pass (for rules with finite numeric fields). -/
def canonRoutingRule (r : ModelRoutingRule) : Option ModelRoutingRule :=
  if jsTrim r.fromModel = "" ∨ jsTrim r.targetModel = "" then none
  else some ⟨r.enabled, jsTrim r.fromModel, jsTrim r.targetModel,
             clampPercentDTO r.targetPercent, clampStickyDTO r.stickyWindowSeconds⟩

/-- The policy `normalizePolicy` recovers from `toDTO P` for a well-formed
`P`. -/
def canonPolicy (P : ApiKeyPolicy) : ApiKeyPolicy :=
  { apiKey := P.apiKey
    upstreamBaseUrl := jsTrim P.upstreamBaseUrl
    excludedModels := P.excludedModels
    allowClaudeOpus46 := P.allowClaudeOpus46
    dailyLimits := P.dailyLimits
    modelRoutingRules := P.modelRoutingRules.filterMap canonRoutingRule
    claudeFailoverEnabled := P.claudeFailoverEnabled
    claudeFailoverTargetModel := jsTrim P.claudeFailoverTargetModel
    claudeFailoverRules := P.claudeFailoverRules.filterMap canonFailoverRule }

/-- Well-formedness of an in-memory policy: the conditions under which one
serialize–normalize pass reproduces the same wire document. -/
structure WfPolicy (P : ApiKeyPolicy) : Prop where
  apiKey_trimmed : jsTrim P.apiKey = P.apiKey
  apiKey_ne : P.apiKey ≠ ""
  excluded_wf : ∀ m ∈ P.excludedModels, jsTrim m = m ∧ m ≠ ""
  daily_keys_nodup : (P.dailyLimits.map Prod.fst).Nodup
  daily_wf : ∀ kv ∈ P.dailyLimits, jsToLower (jsTrim kv.1) = kv.1 ∧ kv.1 ≠ "" ∧
    kv.2.isFinite = true ∧ kv.2.gtZero = true ∧ kv.2.floor = kv.2
  failover_target : ¬ (P.claudeFailoverEnabled = true ∧
    jsTrim P.claudeFailoverTargetModel = "")
  routing_wf : ∀ r ∈ P.modelRoutingRules, r.targetPercent.isFinite = true ∧
    r.stickyWindowSeconds.isFinite = true

/-- A concrete well-formed policy exercising every field for the C1
witness. -/
def c1wfP : ApiKeyPolicy :=
  { apiKey := "k", upstreamBaseUrl := " u ", excludedModels := ["a"],
    allowClaudeOpus46 := true, dailyLimits := [("m", .finite 2)],
    modelRoutingRules := [⟨true, "f", "t", .finite 37, .finite 10⟩,
                          ⟨true, " ", "x", .finite 1, .finite 1⟩],
    claudeFailoverEnabled := true, claudeFailoverTargetModel := "z",
    claudeFailoverRules := [⟨"x", "y"⟩, ⟨"", "q"⟩] }

/-! ## Theorems -/

/-! ### Basic lemmas about the modelled primitives -/

@[simp] theorem strOfNullish_vstr (s : String) : strOfNullish (.vstr s) = s := rfl

@[simp] theorem coerceNumNC_vnum (n : JsNum) : coerceNumNC (.vnum n) = n := rfl

@[simp] theorem boolOrTrue_vbool (b : Bool) : boolOrTrue (.vbool b) = b := rfl

@[simp] theorem boolCoerce_vbool (b : Bool) : boolCoerce (.vbool b) = b := rfl

@[simp] theorem jsTrim_empty : jsTrim "" = "" := rfl

theorem jsTrimList_eq (l : List Char) :
    jsTrimList l = List.rdropWhile isJsWhitespace (l.dropWhile isJsWhitespace) := rfl

theorem dropWhile_rdropWhile_dropWhile (l : List Char) :
    List.dropWhile isJsWhitespace
        (List.rdropWhile isJsWhitespace (l.dropWhile isJsWhitespace)) =
      List.rdropWhile isJsWhitespace (l.dropWhile isJsWhitespace) := by
  set A := l.dropWhile isJsWhitespace with hA
  have hAfix : A.dropWhile isJsWhitespace = A := List.dropWhile_idempotent _ _
  have hsuf : (A.reverse.dropWhile isJsWhitespace) <:+ A.reverse :=
    List.dropWhile_suffix _
  obtain ⟨s, hs⟩ := hsuf
  have hm : A.rdropWhile isJsWhitespace ++ s.reverse = A := by
    have := congrArg List.reverse hs
    simpa [List.rdropWhile] using this
  cases hmm : A.rdropWhile isJsWhitespace with
  | nil => simp
  | cons b m' =>
    have hb : ¬ isJsWhitespace b = true := by
      have hA' : A = b :: (m' ++ s.reverse) := by
        rw [← hm, hmm]; simp
      intro hbw
      rw [hA'] at hAfix
      simp [List.dropWhile, hbw] at hAfix
      have hlen := congrArg List.length hAfix
      simp at hlen
      have := (List.dropWhile_suffix (l := m' ++ s.reverse) isJsWhitespace).length_le
      simp [List.length_append] at hlen this
      omega
    simp [List.dropWhile, hb]

theorem jsTrimList_idem (l : List Char) : jsTrimList (jsTrimList l) = jsTrimList l := by
  rw [jsTrimList_eq l, jsTrimList_eq, dropWhile_rdropWhile_dropWhile]
  exact List.rdropWhile_idempotent _ _

@[simp] theorem jsTrim_idem (s : String) : jsTrim (jsTrim s) = jsTrim s := by
  unfold jsTrim
  have : (String.mk (jsTrimList s.toList)).toList = jsTrimList s.toList := rfl
  rw [this, jsTrimList_idem]

/-! ### Lemmas about `objInsert` (JavaScript property writes) -/

theorem objInsert_lookup_self {α : Type} (l : List (String × α)) (k : String) (v : α) :
    (objInsert l k v).lookup k = some v := by
  induction l with
  | nil => simp [objInsert, List.lookup]
  | cons a t ih =>
    by_cases h : a.1 = k
    · simp [objInsert, h, List.lookup]
    · have hb : (k == a.1) = false := beq_eq_false_iff_ne.mpr (Ne.symm h)
      simp [objInsert, h, List.lookup, hb, ih]

theorem objInsert_lookup_ne {α : Type} (l : List (String × α)) (k k' : String) (v : α)
    (h : k' ≠ k) : (objInsert l k v).lookup k' = l.lookup k' := by
  have hb : (k' == k) = false := beq_eq_false_iff_ne.mpr h
  induction l with
  | nil => simp [objInsert, List.lookup, hb]
  | cons a t ih =>
    by_cases ha : a.1 = k
    · subst ha
      simp [objInsert, List.lookup, hb]
    · simp only [objInsert, if_neg ha, List.lookup]
      by_cases hk' : k' == a.1 <;> simp [hk', ih]

theorem mem_objInsert {α : Type} {l : List (String × α)} {k : String} {v : α}
    {kv : String × α} (h : kv ∈ objInsert l k v) : kv = (k, v) ∨ kv ∈ l := by
  induction l with
  | nil => simpa [objInsert] using h
  | cons a t ih =>
    by_cases ha : a.1 = k
    · simp [objInsert, ha] at h
      rcases h with h | h
      · exact Or.inl h
      · exact Or.inr (List.mem_cons_of_mem _ h)
    · simp [objInsert, ha] at h
      rcases h with h | h
      · exact Or.inr (by simp [h])
      · rcases ih h with h' | h'
        · exact Or.inl h'
        · exact Or.inr (List.mem_cons_of_mem _ h')

theorem objInsert_of_fresh {α : Type} {l : List (String × α)} {k : String} (v : α)
    (h : k ∉ l.map Prod.fst) : objInsert l k v = l ++ [(k, v)] := by
  induction l with
  | nil => simp [objInsert]
  | cons a t ih =>
    simp only [List.map_cons, List.mem_cons] at h
    push_neg at h
    simp [objInsert, Ne.symm h.1, ih h.2]

theorem normalizePolicy_some {raw : JsValue} {P : ApiKeyPolicy}
    (h : normalizePolicy raw = some P) :
    raw.isPlainObject = true ∧
    P.apiKey = jsTrim (strOfNullish (raw.getField "api-key")) ∧ P.apiKey ≠ "" ∧
    P.upstreamBaseUrl = upstreamOf raw ∧
    P.excludedModels = normalizeExcluded (raw.getField "excluded-models") ∧
    P.allowClaudeOpus46 = boolOrTrue (raw.getField "allow-claude-opus-4-6") ∧
    P.dailyLimits = dailyLimitsOf raw ∧
    P.claudeFailoverEnabled = (normalizeFailover (raw.getField "failover")).1 ∧
    P.claudeFailoverTargetModel =
      (if (normalizeFailover (raw.getField "failover")).1 ∧
          (normalizeFailover (raw.getField "failover")).2.1 = ""
       then defaultFailoverTarget
       else (normalizeFailover (raw.getField "failover")).2.1) ∧
    P.claudeFailoverRules = (normalizeFailover (raw.getField "failover")).2.2 ∧
    P.modelRoutingRules = normalizeRouting (raw.getField "model-routing") := by
  unfold normalizePolicy at h
  by_cases h1 : raw.isPlainObject
  · rw [if_neg (by simp [h1])] at h
    by_cases h2 : jsTrim (strOfNullish (raw.getField "api-key")) = ""
    · rw [if_pos h2] at h
      exact absurd h (by simp)
    · rw [if_neg h2] at h
      injection h with h
      subst h
      refine ⟨h1, rfl, h2, ?_, rfl, rfl, ?_, rfl, rfl, rfl, rfl⟩
      · rfl
      · rfl
  · rw [if_pos (by simp [h1])] at h
    exact absurd h (by simp)

/-! ### Claim theorems -/

/-- C2: `normalizePolicy` returns `null` exactly when the input is not a
non-array object (`isPlainObject` is the source's
`raw && typeof raw === 'object' && !Array.isArray(raw)` guard) or when the
input's `api-key` field, stringified and trimmed, is empty; for every other
input it returns a fully-populated `ApiKeyPolicy` (witnessed by the structure
type itself, with each absent wire field defaulted — shown concretely for the
input holding only an `api-key`). -/
theorem normalizePolicy_none_iff :
    (∀ raw : JsValue, normalizePolicy raw = none ↔
        raw.isPlainObject = false ∨ jsTrim (strOfNullish (raw.getField "api-key")) = "") ∧
    normalizePolicy (.vobj [("api-key", .vstr "k")]) =
      some { apiKey := "k", upstreamBaseUrl := "", excludedModels := [],
             allowClaudeOpus46 := true, dailyLimits := [], modelRoutingRules := [],
             claudeFailoverEnabled := false, claudeFailoverTargetModel := "",
             claudeFailoverRules := [] } := by
  constructor
  · intro raw
    unfold normalizePolicy
    by_cases h1 : raw.isPlainObject
    · rw [if_neg (by simp [h1])]
      by_cases h2 : jsTrim (strOfNullish (raw.getField "api-key")) = ""
      · simp [h2]
      · simp [h2, h1]
    · simp [h1, Bool.not_eq_true] at *
  · decide

/-! ### Inversion of the rule parsers -/

theorem parseFailoverRule_some {e : JsValue} {r : ModelFailoverRule}
    (h : parseFailoverRule e = some r) :
    e.isPlainObject = true ∧
    r.fromModel = jsTrim (strOfNullish (e.getField "from-model")) ∧
    r.targetModel = jsTrim (strOfNullish (e.getField "target-model")) ∧
    r.fromModel ≠ "" ∧ r.targetModel ≠ "" := by
  unfold parseFailoverRule at h
  by_cases h1 : e.isPlainObject
  · rw [if_neg (by simp [h1])] at h
    by_cases h2 : jsTrim (strOfNullish (e.getField "from-model")) = "" ∨
        jsTrim (strOfNullish (e.getField "target-model")) = ""
    · rw [if_pos h2] at h
      exact absurd h (by simp)
    · rw [if_neg h2] at h
      push_neg at h2
      injection h with h
      subst h
      exact ⟨h1, rfl, rfl, h2.1, h2.2⟩
  · rw [if_pos (by simp [h1])] at h
    exact absurd h (by simp)

theorem parseRoutingRule_some {e : JsValue} {r : ModelRoutingRule}
    (h : parseRoutingRule e = some r) :
    e.isPlainObject = true ∧
    r.enabled = boolOrTrue (e.getField "enabled") ∧
    r.fromModel = jsTrim (strOfNullish (e.getField "from-model")) ∧
    r.targetModel = jsTrim (strOfNullish (e.getField "target-model")) ∧
    r.fromModel ≠ "" ∧ r.targetModel ≠ "" ∧
    r.targetPercent =
      (if (coerceNumNC (e.getField "target-percent")).isFinite
       then ((coerceNumNC (e.getField "target-percent")).floor.minC 100).maxC 0
       else .finite 0) ∧
    r.stickyWindowSeconds =
      (if (coerceNumNC (e.getField "sticky-window-seconds")).isFinite ∧
          (coerceNumNC (e.getField "sticky-window-seconds")).gtZero
       then (coerceNumNC (e.getField "sticky-window-seconds")).floor
       else .finite 3600) := by
  unfold parseRoutingRule at h
  by_cases h1 : e.isPlainObject
  · rw [if_neg (by simp [h1])] at h
    by_cases h2 : jsTrim (strOfNullish (e.getField "from-model")) = "" ∨
        jsTrim (strOfNullish (e.getField "target-model")) = ""
    · rw [if_pos h2] at h
      exact absurd h (by simp)
    · rw [if_neg h2] at h
      push_neg at h2
      injection h with h
      subst h
      exact ⟨h1, rfl, rfl, rfl, h2.1, h2.2, rfl, rfl⟩
  · rw [if_pos (by simp [h1])] at h
    exact absurd h (by simp)

theorem parseFailoverRule_none (e : JsValue)
    (h : e.isPlainObject = false ∨ jsTrim (strOfNullish (e.getField "from-model")) = "" ∨
         jsTrim (strOfNullish (e.getField "target-model")) = "") :
    parseFailoverRule e = none := by
  unfold parseFailoverRule
  by_cases h1 : e.isPlainObject
  · rw [if_neg (by simp [h1])]
    rcases h with h | h
    · simp [h1] at h
    · rw [if_pos h]
  · rw [if_pos (by simp [h1])]

theorem parseRoutingRule_none (e : JsValue)
    (h : e.isPlainObject = false ∨ jsTrim (strOfNullish (e.getField "from-model")) = "" ∨
         jsTrim (strOfNullish (e.getField "target-model")) = "") :
    parseRoutingRule e = none := by
  unfold parseRoutingRule
  by_cases h1 : e.isPlainObject
  · rw [if_neg (by simp [h1])]
    rcases h with h | h
    · simp [h1] at h
    · rw [if_pos h]
  · rw [if_pos (by simp [h1])]

theorem mem_normalizeFailover_rules {v : JsValue} {r : ModelFailoverRule}
    (h : r ∈ (normalizeFailover v).2.2) : ∃ e, parseFailoverRule e = some r := by
  unfold normalizeFailover at h
  by_cases h1 : v.isPlainObject
  · rw [if_pos h1] at h
    by_cases h2 : (v.getField "claude").isPlainObject
    · rw [if_pos h2] at h
      dsimp only at h
      rcases hm : (v.getField "claude").getField "rules" with _ | _ | _ | _ | _ | rs | _ <;>
        rw [hm] at h <;> simp at h
      rcases h with ⟨e, _, he⟩
      exact ⟨e, he⟩
    · rw [if_neg h2] at h
      simp at h
  · rw [if_neg h1] at h
    simp at h

theorem mem_normalizeRouting {v : JsValue} {r : ModelRoutingRule}
    (h : r ∈ normalizeRouting v) : ∃ e, parseRoutingRule e = some r := by
  unfold normalizeRouting at h
  by_cases h1 : v.isPlainObject
  · rw [if_pos h1] at h
    rcases hm : v.getField "rules" with _ | _ | _ | _ | _ | rs | _ <;>
      rw [hm] at h <;> simp at h
    rcases h with ⟨e, _, he⟩
    exact ⟨e, he⟩
  · rw [if_neg h1] at h
    simp at h

theorem dtoRoutingRules_toDTO (policy : ApiKeyPolicy) :
    dtoRoutingRulesOf (toDTO policy) =
      (policy.modelRoutingRules.map routingRuleToDTO).filter dtoRuleKept := by
  simp [dtoRoutingRulesOf, toDTO, JsValue.getField, List.lookup]

theorem dtoFailoverRules_toDTO (policy : ApiKeyPolicy) :
    dtoFailoverRulesOf (toDTO policy) =
      (policy.claudeFailoverRules.map failoverRuleToDTO).filter dtoRuleKept := by
  simp [dtoFailoverRulesOf, toDTO, JsValue.getField, List.lookup]

@[simp] theorem routingRuleToDTO_from (r : ModelRoutingRule) :
    (routingRuleToDTO r).getField "from-model" = .vstr (jsTrim r.fromModel) := by
  simp [routingRuleToDTO, JsValue.getField, List.lookup]

@[simp] theorem routingRuleToDTO_target (r : ModelRoutingRule) :
    (routingRuleToDTO r).getField "target-model" = .vstr (jsTrim r.targetModel) := by
  simp [routingRuleToDTO, JsValue.getField, List.lookup]

@[simp] theorem routingRuleToDTO_enabled (r : ModelRoutingRule) :
    (routingRuleToDTO r).getField "enabled" = .vbool r.enabled := by
  simp [routingRuleToDTO, JsValue.getField, List.lookup]

@[simp] theorem routingRuleToDTO_percent (r : ModelRoutingRule) :
    (routingRuleToDTO r).getField "target-percent" =
      .vnum (clampPercentDTO r.targetPercent) := by
  simp [routingRuleToDTO, JsValue.getField, List.lookup]

@[simp] theorem routingRuleToDTO_sticky (r : ModelRoutingRule) :
    (routingRuleToDTO r).getField "sticky-window-seconds" =
      .vnum (clampStickyDTO r.stickyWindowSeconds) := by
  simp [routingRuleToDTO, JsValue.getField, List.lookup]

@[simp] theorem failoverRuleToDTO_from (r : ModelFailoverRule) :
    (failoverRuleToDTO r).getField "from-model" = .vstr (jsTrim r.fromModel) := by
  simp [failoverRuleToDTO, JsValue.getField, List.lookup]

@[simp] theorem failoverRuleToDTO_target (r : ModelFailoverRule) :
    (failoverRuleToDTO r).getField "target-model" = .vstr (jsTrim r.targetModel) := by
  simp [failoverRuleToDTO, JsValue.getField, List.lookup]

theorem dtoRuleKept_routing (r : ModelRoutingRule) :
    dtoRuleKept (routingRuleToDTO r) =
      (!(jsTrim r.fromModel).isEmpty && !(jsTrim r.targetModel).isEmpty) := by
  simp [dtoRuleKept, JsValue.truthy]

theorem dtoRuleKept_failover (r : ModelFailoverRule) :
    dtoRuleKept (failoverRuleToDTO r) =
      (!(jsTrim r.fromModel).isEmpty && !(jsTrim r.targetModel).isEmpty) := by
  simp [dtoRuleKept, JsValue.truthy]

/-- C3: every failover rule and every routing rule in the output of
`normalizePolicy`, and in the DTO emitted by `toDTO`, has non-empty (trimmed)
`fromModel` and `targetModel`; any input rule entry that is not a non-array
object, or whose trimmed `from-model`/`target-model` is empty, is rejected by
the entry parsers (hence absent from the output lists, which the parsers
build by dropping `null` map results). -/
theorem rules_require_models :
    (∀ raw P, normalizePolicy raw = some P →
       (∀ r ∈ P.claudeFailoverRules,
          r.fromModel ≠ "" ∧ r.targetModel ≠ "" ∧
          jsTrim r.fromModel = r.fromModel ∧ jsTrim r.targetModel = r.targetModel) ∧
       (∀ r ∈ P.modelRoutingRules,
          r.fromModel ≠ "" ∧ r.targetModel ≠ "" ∧
          jsTrim r.fromModel = r.fromModel ∧ jsTrim r.targetModel = r.targetModel)) ∧
    (∀ policy : ApiKeyPolicy, ∀ d ∈ dtoRoutingRulesOf (toDTO policy),
       ∃ s t, d.getField "from-model" = .vstr s ∧ d.getField "target-model" = .vstr t ∧
         s ≠ "" ∧ t ≠ "" ∧ jsTrim s = s ∧ jsTrim t = t) ∧
    (∀ policy : ApiKeyPolicy, ∀ d ∈ dtoFailoverRulesOf (toDTO policy),
       ∃ s t, d.getField "from-model" = .vstr s ∧ d.getField "target-model" = .vstr t ∧
         s ≠ "" ∧ t ≠ "" ∧ jsTrim s = s ∧ jsTrim t = t) ∧
    (∀ e : JsValue,
       e.isPlainObject = false ∨ jsTrim (strOfNullish (e.getField "from-model")) = "" ∨
         jsTrim (strOfNullish (e.getField "target-model")) = "" →
       parseFailoverRule e = none ∧ parseRoutingRule e = none) := by
  refine ⟨?_, ?_, ?_, fun e he => ⟨parseFailoverRule_none e he, parseRoutingRule_none e he⟩⟩
  · intro raw P hP
    obtain ⟨_, _, _, _, _, _, _, _, _, hfr, hrr⟩ := normalizePolicy_some hP
    constructor
    · intro r hr
      rw [hfr] at hr
      obtain ⟨e, he⟩ := mem_normalizeFailover_rules hr
      obtain ⟨_, hf, ht, hne, hnet⟩ := parseFailoverRule_some he
      exact ⟨hne, hnet, by rw [hf, jsTrim_idem], by rw [ht, jsTrim_idem]⟩
    · intro r hr
      rw [hrr] at hr
      obtain ⟨e, he⟩ := mem_normalizeRouting hr
      obtain ⟨_, _, hf, ht, hne, hnet, _, _⟩ := parseRoutingRule_some he
      exact ⟨hne, hnet, by rw [hf, jsTrim_idem], by rw [ht, jsTrim_idem]⟩
  · intro policy d hd
    rw [dtoRoutingRules_toDTO, List.mem_filter] at hd
    obtain ⟨hd, hkept⟩ := hd
    rw [List.mem_map] at hd
    obtain ⟨r, _, rfl⟩ := hd
    rw [dtoRuleKept_routing] at hkept
    simp only [Bool.and_eq_true, Bool.not_eq_true', String.isEmpty_iff] at hkept
    exact ⟨jsTrim r.fromModel, jsTrim r.targetModel, by simp, by simp,
      by intro hc; rw [hc] at hkept; exact absurd hkept.1 (by decide),
      by intro hc; rw [hc] at hkept; exact absurd hkept.2 (by decide),
      jsTrim_idem _, jsTrim_idem _⟩
  · intro policy d hd
    rw [dtoFailoverRules_toDTO, List.mem_filter] at hd
    obtain ⟨hd, hkept⟩ := hd
    rw [List.mem_map] at hd
    obtain ⟨r, _, rfl⟩ := hd
    rw [dtoRuleKept_failover] at hkept
    simp only [Bool.and_eq_true, Bool.not_eq_true', String.isEmpty_iff] at hkept
    exact ⟨jsTrim r.fromModel, jsTrim r.targetModel, by simp, by simp,
      by intro hc; rw [hc] at hkept; exact absurd hkept.1 (by decide),
      by intro hc; rw [hc] at hkept; exact absurd hkept.2 (by decide),
      jsTrim_idem _, jsTrim_idem _⟩

theorem rules_require_models_witness :
    (("x" : String) ≠ "" ∧ ("y" : String) ≠ "" ∧
     jsTrim "x" = "x" ∧ jsTrim "y" = "y") ∧
    parseFailoverRule (.vstr "bad") = none ∧ parseRoutingRule (.vstr "bad") = none :=
  ⟨(rules_require_models.1 c3raw c3P (by decide)).1 ⟨"x", "y"⟩ (by decide),
   (rules_require_models.2.2.2 (.vstr "bad") (Or.inl (by decide))).1,
   (rules_require_models.2.2.2 (.vstr "bad") (Or.inl (by decide))).2⟩

/-! ### Clamping lemmas -/

theorem floor_clamp_comm (q : ℚ) :
    (⌊max 0 (min 100 q)⌋ : ℤ) = max 0 (min 100 ⌊q⌋) := by
  rw [Monotone.map_max (Int.floor_mono (α := ℚ)), Monotone.map_min (Int.floor_mono (α := ℚ))]
  norm_num

/-- C4: for every routing rule entry `normalizePolicy` accepts, the resulting
`targetPercent` is `Math.floor` of the coerced numeric `target-percent`
clamped into `[0,100]`, and `0` when the coercion is not finite; concretely
`150.7 ↦ 100`, `-5 ↦ 0`, `37.9 ↦ 37`. -/
theorem targetPercent_clamped :
    (∀ (e : JsValue) (r : ModelRoutingRule) (q : ℚ), parseRoutingRule e = some r →
       coerceNumNC (e.getField "target-percent") = .finite q →
       r.targetPercent = .finite ((⌊max 0 (min 100 q)⌋ : ℤ) : ℚ)) ∧
    (∀ (e : JsValue) (r : ModelRoutingRule), parseRoutingRule e = some r →
       (coerceNumNC (e.getField "target-percent")).isFinite = false →
       r.targetPercent = .finite 0) ∧
    (parseRoutingRule (mkRoutingEntry (.vnum (.finite (mkRat 1507 10))) .vundef)).map
        ModelRoutingRule.targetPercent = some (.finite 100) ∧
    (parseRoutingRule (mkRoutingEntry (.vnum (.finite (-5))) .vundef)).map
        ModelRoutingRule.targetPercent = some (.finite 0) ∧
    (parseRoutingRule (mkRoutingEntry (.vnum (.finite (mkRat 379 10))) .vundef)).map
        ModelRoutingRule.targetPercent = some (.finite 37) := by
  refine ⟨?_, ?_, by decide, by decide, by decide⟩
  · intro e r q hp hq
    obtain ⟨_, _, _, _, _, _, hper, _⟩ := parseRoutingRule_some hp
    rw [hper, hq]
    simp only [JsNum.isFinite, JsNum.floor, JsNum.minC, JsNum.maxC, if_pos]
    rw [floor_clamp_comm]
    push_cast
    rw [max_comm, min_comm]
  · intro e r hp hfin
    obtain ⟨_, _, _, _, _, _, hper, _⟩ := parseRoutingRule_some hp
    rw [hper, if_neg (by simp [hfin])]

theorem targetPercent_clamped_witness :
    (⟨true, "a", "b", .finite 37, .finite 3600⟩ : ModelRoutingRule).targetPercent =
      .finite ((⌊max 0 (min 100 (mkRat 379 10))⌋ : ℤ) : ℚ) :=
  targetPercent_clamped.1 (mkRoutingEntry (.vnum (.finite (mkRat 379 10))) .vundef)
    ⟨true, "a", "b", .finite 37, .finite 3600⟩ (mkRat 379 10) (by decide) (by decide)

/-- C5 counterexample: the routing entry with `sticky-window-seconds = 0.5`
is accepted and yields `stickyWindowSeconds = 0`, which is not positive
(`0.5` is finite and `> 0`, so the code takes `Math.floor(0.5) = 0` rather
than the `3600` default). -/
theorem sticky_positive_counterexample :
    (parseRoutingRule (mkRoutingEntry .vundef (.vnum (.finite (mkRat 1 2))))).map
        ModelRoutingRule.stickyWindowSeconds = some (.finite 0) ∧
    ¬ ((0 : ℚ) > 0) := ⟨by decide, by norm_num⟩

/-- C5 (amended): for every routing rule entry `normalizePolicy` accepts, the
resulting `stickyWindowSeconds` is a non-negative integer: `3600` whenever
the raw `sticky-window-seconds` is non-positive or non-numeric, and
`Math.floor` of the coerced number otherwise (so an input strictly between 0
and 1 yields 0); the numeric string `"7200"` yields `7200`. -/
theorem sticky_window_rule :
    (∀ (e : JsValue) (r : ModelRoutingRule), parseRoutingRule e = some r →
       r.stickyWindowSeconds =
         (if (coerceNumNC (e.getField "sticky-window-seconds")).isFinite ∧
             (coerceNumNC (e.getField "sticky-window-seconds")).gtZero
          then (coerceNumNC (e.getField "sticky-window-seconds")).floor
          else .finite 3600) ∧
       ∃ z : ℤ, 0 ≤ z ∧ r.stickyWindowSeconds = .finite (z : ℚ)) ∧
    (parseRoutingRule (mkRoutingEntry .vundef (.vstr "7200"))).map
        ModelRoutingRule.stickyWindowSeconds = some (.finite 7200) ∧
    (parseRoutingRule (mkRoutingEntry .vundef (.vnum (.finite (-5))))).map
        ModelRoutingRule.stickyWindowSeconds = some (.finite 3600) ∧
    (parseRoutingRule (mkRoutingEntry .vundef (.vstr "abc"))).map
        ModelRoutingRule.stickyWindowSeconds = some (.finite 3600) := by
  refine ⟨?_, by decide, by decide, by decide⟩
  intro e r hp
  obtain ⟨_, _, _, _, _, _, _, hst⟩ := parseRoutingRule_some hp
  refine ⟨hst, ?_⟩
  rw [hst]
  rcases hn : coerceNumNC (e.getField "sticky-window-seconds") with q | _ | _ | _
  · by_cases hq : (0 : ℚ) < q
    · rw [if_pos ⟨by simp [JsNum.isFinite], by simp [JsNum.gtZero, hq]⟩]
      exact ⟨⌊q⌋, Int.le_floor.mpr (by exact_mod_cast hq.le), rfl⟩
    · rw [if_neg (by simp [JsNum.gtZero, hq])]
      exact ⟨3600, by norm_num, by norm_cast⟩
  · rw [if_neg (by simp [JsNum.isFinite])]
    exact ⟨3600, by norm_num, by norm_cast⟩
  · rw [if_neg (by simp [JsNum.gtZero, JsNum.isFinite])]
    exact ⟨3600, by norm_num, by norm_cast⟩
  · rw [if_neg (by simp [JsNum.gtZero, JsNum.isFinite])]
    exact ⟨3600, by norm_num, by norm_cast⟩

theorem sticky_window_rule_witness :
    (⟨true, "a", "b", .finite 0, .finite 7200⟩ : ModelRoutingRule).stickyWindowSeconds =
      (if (coerceNumNC ((mkRoutingEntry .vundef (.vstr "7200")).getField
              "sticky-window-seconds")).isFinite ∧
          (coerceNumNC ((mkRoutingEntry .vundef (.vstr "7200")).getField
              "sticky-window-seconds")).gtZero
       then (coerceNumNC ((mkRoutingEntry .vundef (.vstr "7200")).getField
              "sticky-window-seconds")).floor
       else .finite 3600) :=
  (sticky_window_rule.1 (mkRoutingEntry .vundef (.vstr "7200"))
    ⟨true, "a", "b", .finite 0, .finite 7200⟩ (by decide)).1

/-! ### C7: the failover target default -/

theorem normalizeFailover_enabled_imp {v : JsValue}
    (h : (normalizeFailover v).1 = true) :
    (normalizeFailover v).2.1 =
      jsTrim (strOfNullish ((v.getField "claude").getField "target-model")) := by
  unfold normalizeFailover at *
  by_cases h1 : v.isPlainObject
  · rw [if_pos h1] at *
    by_cases h2 : (v.getField "claude").isPlainObject
    · rw [if_pos h2]
    · rw [if_neg h2] at h
      simp at h
  · rw [if_neg h1] at h
    simp at h

theorem normalizeFailover_target_eq (v : JsValue) :
    (normalizeFailover v).2.1 =
      jsTrim (strOfNullish ((v.getField "claude").getField "target-model")) := by
  unfold normalizeFailover
  by_cases h1 : v.isPlainObject
  · rw [if_pos h1]
    by_cases h2 : (v.getField "claude").isPlainObject
    · rw [if_pos h2]
    · rw [if_neg h2]
      rcases hc : v.getField "claude" with _ | _ | _ | _ | _ | _ | _ <;>
        simp_all [JsValue.isPlainObject, JsValue.getField, strOfNullish,
                  JsValue.nullish, jsToString]
  · rw [if_neg h1]
    rcases v with _ | _ | _ | _ | _ | _ | _ <;>
      simp_all [JsValue.isPlainObject, JsValue.getField, strOfNullish,
                JsValue.nullish, jsToString]

/-- C7: whenever `normalizePolicy` yields `claudeFailoverEnabled = true` and
the input's `failover.claude.target-model`, stringified and trimmed, is
empty, the returned `claudeFailoverTargetModel` is the fixed constant
`'gpt-5.2(high)'`; when failover is not enabled no default is applied (the
target is just the trimmed input string). -/
theorem failover_default_target :
    ∀ (raw : JsValue) (P : ApiKeyPolicy), normalizePolicy raw = some P →
      (P.claudeFailoverEnabled = true →
         jsTrim (strOfNullish (((raw.getField "failover").getField "claude").getField
            "target-model")) = "" →
         P.claudeFailoverTargetModel = defaultFailoverTarget) ∧
      (P.claudeFailoverEnabled = false →
         P.claudeFailoverTargetModel =
           jsTrim (strOfNullish (((raw.getField "failover").getField "claude").getField
              "target-model"))) := by
  intro raw P hP
  obtain ⟨_, _, _, _, _, _, _, hen, htm, _, _⟩ := normalizePolicy_some hP
  constructor
  · intro he hempty
    rw [hen] at he
    rw [htm, if_pos ⟨he, by rw [normalizeFailover_enabled_imp he]; exact hempty⟩]
  · intro he
    rw [hen] at he
    rw [htm, if_neg (by rw [he]; simp), normalizeFailover_target_eq]

theorem failover_default_target_witness :
    c7P.claudeFailoverTargetModel = defaultFailoverTarget :=
  (failover_default_target c7raw c7P (by decide)).1 (by decide) (by decide)

/-! ### C8: `remove` on a blank key -/

/-- C8: every apiKey argument that stringifies and trims to the empty string
(including `""` and `"   "`) makes `remove` perform no network call; any
other argument issues exactly one DELETE with the trimmed key URL-encoded. -/
theorem remove_empty_noop :
    (∀ v : JsValue, jsTrim (strOfNullish v) = "" → removeRequest v = none) ∧
    (∀ v : JsValue, jsTrim (strOfNullish v) ≠ "" →
       removeRequest v =
         some ("/api-key-policies?api-key=" ++
               encodeURIComponent (jsTrim (strOfNullish v)))) ∧
    removeRequest (.vstr "") = none ∧
    removeRequest (.vstr "   ") = none := by
  refine ⟨?_, ?_, by decide, by decide⟩
  · intro v h
    unfold removeRequest
    rw [if_pos h]
  · intro v h
    unfold removeRequest
    rw [if_neg h]

theorem remove_empty_noop_witness :
    removeRequest (.vstr " key 1 ") =
      some ("/api-key-policies?api-key=" ++
            encodeURIComponent (jsTrim (strOfNullish (.vstr " key 1 ")))) :=
  remove_empty_noop.2.1 (.vstr " key 1 ") (by decide)

/-! ### C10: the serializer's sticky-window clamp -/

/-- C10: for every routing rule, `toDTO` emits
`sticky-window-seconds = Math.max(1, Math.floor(stickyWindowSeconds))`
(the rule's sticky field is a `number` by the interface type); serializing
then normalizing a kept rule whose `stickyWindowSeconds ≤ 0` therefore yields
`1`, not the `3600` default `normalizePolicy` uses. -/
theorem sticky_serialization :
    (∀ r : ModelRoutingRule,
       (routingRuleToDTO r).getField "sticky-window-seconds" =
         .vnum (r.stickyWindowSeconds.floor.maxC 1)) ∧
    (∀ r r' : ModelRoutingRule,
       r.stickyWindowSeconds.leZero = true →
       parseRoutingRule (routingRuleToDTO r) = some r' →
       r'.stickyWindowSeconds = .finite 1) ∧
    parseRoutingRule (routingRuleToDTO ⟨true, "a", "b", .finite 0, .finite (-5)⟩) =
      some ⟨true, "a", "b", .finite 0, .finite 1⟩ ∧
    (JsNum.finite 1 ≠ JsNum.finite 3600) := by
  refine ⟨fun r => routingRuleToDTO_sticky r, ?_, by decide, by decide⟩
  intro r r' hle hp
  obtain ⟨_, _, _, _, _, _, _, hst⟩ := parseRoutingRule_some hp
  have hx : coerceNumNC ((routingRuleToDTO r).getField "sticky-window-seconds") =
      clampStickyDTO r.stickyWindowSeconds := by
    rw [routingRuleToDTO_sticky]
    rfl
  have hone : clampStickyDTO r.stickyWindowSeconds = .finite 1 := by
    rcases hs : r.stickyWindowSeconds with q | _ | _ | _ <;>
      rw [hs] at hle <;> simp [JsNum.leZero] at hle <;>
      simp [clampStickyDTO, JsNum.floor, JsNum.maxC]
    · have : ((⌊q⌋ : ℤ) : ℚ) ≤ 0 := by
        have h0 : ⌊q⌋ ≤ 0 := by
          have := Int.floor_le_floor (α := ℚ) hle
          simpa using this
        exact_mod_cast h0
      exact le_trans this (by norm_num)
  rw [hst, hx, hone]
  rw [if_pos ⟨by simp [JsNum.isFinite], by simp [JsNum.gtZero]⟩]
  simp [JsNum.floor]

theorem sticky_serialization_witness :
    (⟨true, "a", "b", .finite 0, .finite 1⟩ : ModelRoutingRule).stickyWindowSeconds =
      .finite 1 :=
  sticky_serialization.2.1 ⟨true, "a", "b", .finite 0, .finite (-5)⟩
    ⟨true, "a", "b", .finite 0, .finite 1⟩ (by decide) (by decide)

/-! ### C9: order preservation -/

theorem filterMap_eq_filter_map_getD {α β : Type} (f : α → Option β) (d : β)
    (l : List α) :
    l.filterMap f =
      (l.filter (fun a => (f a).isSome)).map (fun a => (f a).getD d) := by
  induction l with
  | nil => simp
  | cons a t ih =>
    cases hfa : f a <;> simp [List.filterMap_cons, hfa, ih]

/-- C9: `normalizePolicy` preserves relative order: the `excludedModels`,
`claudeFailoverRules` and `modelRoutingRules` lists of the output are the
in-order images of exactly the accepted entries of the corresponding input
arrays (filter-then-map, so no reordering, duplication or insertion). -/
theorem normalize_preserves_order :
    ∀ (raw : JsValue) (P : ApiKeyPolicy), normalizePolicy raw = some P →
      (∀ xs, raw.getField "excluded-models" = .varr xs →
         P.excludedModels =
           (xs.filter (fun m => !(jsTrim (jsToString m)).isEmpty)).map
             (fun m => jsTrim (jsToString m))) ∧
      (∀ rs, (raw.getField "failover").isPlainObject = true →
         ((raw.getField "failover").getField "claude").isPlainObject = true →
         ((raw.getField "failover").getField "claude").getField "rules" = .varr rs →
         P.claudeFailoverRules =
           (rs.filter (fun e => (parseFailoverRule e).isSome)).map
             (fun e => (parseFailoverRule e).getD ⟨"", ""⟩)) ∧
      (∀ rs, (raw.getField "model-routing").isPlainObject = true →
         (raw.getField "model-routing").getField "rules" = .varr rs →
         P.modelRoutingRules =
           (rs.filter (fun e => (parseRoutingRule e).isSome)).map
             (fun e => (parseRoutingRule e).getD ⟨true, "", "", .finite 0, .finite 0⟩)) := by
  intro raw P hP
  obtain ⟨_, _, _, _, hex, _, _, _, _, hfr, hrr⟩ := normalizePolicy_some hP
  refine ⟨?_, ?_, ?_⟩
  · intro xs hxs
    rw [hex, hxs]
    show (xs.map (fun m => jsTrim (jsToString m))).filter (fun s => !s.isEmpty) = _
    rw [List.filter_map]
    rfl
  · intro rs h1 h2 h3
    rw [hfr]
    unfold normalizeFailover
    rw [if_pos h1, if_pos h2]
    dsimp only
    rw [h3]
    exact filterMap_eq_filter_map_getD _ _ _
  · intro rs h1 h2
    rw [hrr]
    unfold normalizeRouting
    rw [if_pos h1, h2]
    exact filterMap_eq_filter_map_getD _ _ _

theorem normalize_preserves_order_witness :
    c9P.excludedModels =
      (([JsValue.vstr " a ", JsValue.vstr "  ", JsValue.vstr "b"].filter
          (fun m => !(jsTrim (jsToString m)).isEmpty)).map
        (fun m => jsTrim (jsToString m))) :=
  (normalize_preserves_order c9raw c9P (by decide)).1
    [JsValue.vstr " a ", JsValue.vstr "  ", JsValue.vstr "b"] (by rfl)

theorem str_isEmpty_false_iff {s : String} : s.isEmpty = false ↔ s ≠ "" := by
  constructor
  · intro h hc
    subst hc
    exact absurd h (by decide)
  · intro h
    cases hs : s.isEmpty
    · rfl
    · exact absurd ((String.isEmpty_iff _).mp hs) h

theorem dailyLimitStep_not_accepted (acc : List (String × JsNum))
    (e : String × JsValue) (h : dailyLimitAccepted e = false) :
    dailyLimitStep acc e = acc := by
  unfold dailyLimitStep
  rw [if_neg]
  rintro ⟨h1, h2, h3⟩
  have hacc : dailyLimitAccepted e = true := by
    unfold dailyLimitAccepted
    rw [str_isEmpty_false_iff.mpr h1, h2, h3]
    rfl
  rw [hacc] at h
  exact absurd h (by decide)

theorem dailyLimitStep_accepted (acc : List (String × JsNum))
    (e : String × JsValue) (h : dailyLimitAccepted e = true) :
    dailyLimitStep acc e =
      objInsert acc (jsToLower (jsTrim e.1)) (coerceNum e.2).floor := by
  unfold dailyLimitAccepted at h
  simp only [Bool.and_eq_true, Bool.not_eq_true'] at h
  unfold dailyLimitStep
  rw [if_pos ⟨str_isEmpty_false_iff.mp h.1.1, h.1.2, h.2⟩]

theorem getLast?_cons_of_ne {α : Type} (a : α) (l : List α) (h : l ≠ []) :
    (a :: l).getLast? = l.getLast? := by
  cases l with
  | nil => exact absurd rfl h
  | cons x xs => exact List.getLast?_cons_cons

theorem dailyLimitsSpec_eq (entries : List (String × JsValue)) (k : String) :
    dailyLimitsSpec entries k =
      ((entries.filter (dlKeyPred k)).getLast?).map (fun e => (coerceNum e.2).floor) := rfl

theorem dailyLimitsSpec_cons_of_some {t : List (String × JsValue)} {k : String}
    {v : JsNum} (e : String × JsValue) (h : dailyLimitsSpec t k = some v) :
    dailyLimitsSpec (e :: t) k = some v := by
  rw [dailyLimitsSpec_eq] at h ⊢
  rw [List.filter_cons]
  rcases hft : List.filter (dlKeyPred k) t with _ | ⟨x, xs⟩
  · rw [hft] at h
    simp at h
  · rw [hft] at h
    by_cases hpe : dlKeyPred k e = true
    · rw [if_pos hpe, getLast?_cons_of_ne _ _ (by simp)]
      exact h
    · rw [if_neg hpe]
      exact h

theorem dailyLimitsSpec_cons_of_none {t : List (String × JsValue)} {k : String}
    (e : String × JsValue) (h : dailyLimitsSpec t k = none) :
    dailyLimitsSpec (e :: t) k =
      (if dlKeyPred k e = true then some (coerceNum e.2).floor else none) := by
  rw [dailyLimitsSpec_eq] at h ⊢
  rw [List.filter_cons]
  rcases hft : List.filter (dlKeyPred k) t with _ | ⟨x, xs⟩
  · by_cases hpe : dlKeyPred k e = true
    · rw [if_pos hpe, if_pos hpe]
      rfl
    · rw [if_neg hpe, if_neg hpe]
      rfl
  · rw [hft] at h
    simp at h

theorem foldl_dailyLimit_lookup (l : List (String × JsValue)) :
    ∀ (acc : List (String × JsNum)) (k : String),
      (List.foldl dailyLimitStep acc l).lookup k =
        match dailyLimitsSpec l k with
        | some v => some v
        | none => acc.lookup k := by
  induction l with
  | nil =>
    intro acc k
    rfl
  | cons e t ih =>
    intro acc k
    rw [List.foldl_cons, ih]
    by_cases hsp : ∃ v, dailyLimitsSpec t k = some v
    · obtain ⟨v, hv⟩ := hsp
      rw [hv, dailyLimitsSpec_cons_of_some e hv]
    · have hnone : dailyLimitsSpec t k = none := by
        cases h : dailyLimitsSpec t k
        · rfl
        · exact absurd ⟨_, h⟩ hsp
      rw [hnone, dailyLimitsSpec_cons_of_none e hnone]
      by_cases hpe : dlKeyPred k e = true
      · rw [if_pos hpe]
        have hga : dailyLimitAccepted e = true ∧ jsToLower (jsTrim e.1) = k := by
          unfold dlKeyPred at hpe
          simpa using hpe
        rw [dailyLimitStep_accepted _ _ hga.1, hga.2, objInsert_lookup_self]
      · rw [if_neg hpe]
        unfold dlKeyPred at hpe
        simp only [Bool.and_eq_true, beq_iff_eq, not_and] at hpe
        cases hb : dailyLimitAccepted e
        · rw [dailyLimitStep_not_accepted _ _ hb]
        · have hkey : jsToLower (jsTrim e.1) ≠ k := hpe hb
          rw [dailyLimitStep_accepted _ _ hb]
          exact objInsert_lookup_ne _ _ _ _ (Ne.symm hkey)

theorem buildDailyLimits_lookup (entries : List (String × JsValue)) (k : String) :
    (buildDailyLimits entries).lookup k = dailyLimitsSpec entries k := by
  unfold buildDailyLimits
  rw [foldl_dailyLimit_lookup]
  cases h : dailyLimitsSpec entries k
  · rfl
  · rfl

theorem mem_foldl_dailyLimit (l : List (String × JsValue)) :
    ∀ (acc : List (String × JsNum)) (kv : String × JsNum),
      kv ∈ List.foldl dailyLimitStep acc l →
      kv ∈ acc ∨ ∃ e ∈ l, dailyLimitAccepted e = true ∧
        kv = (jsToLower (jsTrim e.1), (coerceNum e.2).floor) := by
  induction l with
  | nil =>
    intro acc kv h
    exact Or.inl h
  | cons e t ih =>
    intro acc kv h
    rw [List.foldl_cons] at h
    rcases ih _ _ h with h' | ⟨e', he', ha', hkv⟩
    · cases hb : dailyLimitAccepted e
      · rw [dailyLimitStep_not_accepted _ _ hb] at h'
        exact Or.inl h'
      · rw [dailyLimitStep_accepted _ _ hb] at h'
        rcases mem_objInsert h' with h'' | h''
        · exact Or.inr ⟨e, List.mem_cons_self _ _, hb, h''⟩
        · exact Or.inl h''
    · exact Or.inr ⟨e', List.mem_cons_of_mem _ he', ha', hkv⟩

/-- C6 counterexample: the daily-limit entry `{"m": 0.5}` passes the
`Number.isFinite(num) && num > 0` guard and `Math.floor(0.5) = 0`, so the
normalized map holds the value `0` — not a positive integer. -/
theorem dailyLimits_positive_counterexample :
    (normalizePolicy (.vobj [("api-key", .vstr "k"),
        ("daily-limits", .vobj [("m", .vnum (.finite (mkRat 1 2)))])])).map
      ApiKeyPolicy.dailyLimits = some [("m", .finite 0)] ∧
    ¬ ((0 : ℚ) > 0) := ⟨by decide, by norm_num⟩

/-- C6 (amended): in the `dailyLimits` map produced by `normalizePolicy`,
every key is the trimmed lower-casing of a key of the input `daily-limits`
object and every value is a NON-NEGATIVE integer (`Math.floor` of the coerced
value, which is `0` for coerced values in `(0,1)`); entries whose coerced
value is non-finite or `≤ 0`, or whose trimmed key is empty, are excluded;
when two input keys normalize to the same key, the entry written last in
iteration order wins (the lookup equals the last accepted write). -/
theorem dailyLimits_normalization :
    (∀ raw P, normalizePolicy raw = some P → ∀ kv ∈ P.dailyLimits,
       (∃ z : ℤ, 0 ≤ z ∧ kv.2 = .finite (z : ℚ)) ∧
       ∃ entries, raw.getField "daily-limits" = .vobj entries ∧
         ∃ e ∈ entries, dailyLimitAccepted e = true ∧
           kv.1 = jsToLower (jsTrim e.1) ∧ kv.2 = (coerceNum e.2).floor) ∧
    (∀ entries k, (buildDailyLimits entries).lookup k = dailyLimitsSpec entries k) ∧
    (∀ acc e, dailyLimitAccepted e = false → dailyLimitStep acc e = acc) := by
  refine ⟨?_, buildDailyLimits_lookup, dailyLimitStep_not_accepted⟩
  intro raw P hP kv hkv
  obtain ⟨_, _, _, _, _, _, hdl, _, _, _, _⟩ := normalizePolicy_some hP
  rw [hdl] at hkv
  unfold dailyLimitsOf at hkv
  have hmem : ∃ entries, raw.getField "daily-limits" = .vobj entries ∧
      kv ∈ buildDailyLimits entries := by
    rcases hg : raw.getField "daily-limits" with _ | _ | _ | _ | _ | _ | fields <;>
      rw [hg] at hkv <;>
      first
        | exact absurd hkv (List.not_mem_nil _)
        | exact ⟨fields, rfl, hkv⟩
  obtain ⟨fields, hg, hkv⟩ := hmem
  rcases mem_foldl_dailyLimit fields _ _ hkv with h' | ⟨e, he, ha, hkv'⟩
  · exact absurd h' (by simp)
  · constructor
    · have ha' := ha
      unfold dailyLimitAccepted at ha'
      simp only [Bool.and_eq_true] at ha'
      rcases hn : coerceNum e.2 with q | _ | _ | _ <;> rw [hn] at ha'
      · refine ⟨⌊q⌋, ?_, ?_⟩
        · have hq : 0 < q := by
            have := ha'.2
            simpa [JsNum.gtZero] using this
          exact Int.le_floor.mpr (by exact_mod_cast hq.le)
        · rw [hkv']
          simp [hn, JsNum.floor]
      · simp [JsNum.isFinite] at ha'
      · simp [JsNum.isFinite] at ha'
      · simp [JsNum.isFinite] at ha'
    · exact ⟨fields, hg, e, he, ha, by rw [hkv'], by rw [hkv']⟩

theorem dailyLimits_normalization_witness :
    (buildDailyLimits c6entries).lookup "claude-opus-4-6" =
      dailyLimitsSpec c6entries "claude-opus-4-6" ∧
    dailyLimitStep [("a", .finite 1)] ("m", .vstr "x") = [("a", .finite 1)] :=
  ⟨dailyLimits_normalization.2.1 c6entries "claude-opus-4-6",
   dailyLimits_normalization.2.2 [("a", .finite 1)] ("m", .vstr "x") (by decide)⟩

/-! ### C1: the serialize–normalize round trip -/

@[simp] theorem toDTO_apiKey (P : ApiKeyPolicy) :
    (toDTO P).getField "api-key" = .vstr P.apiKey := by
  simp [toDTO, JsValue.getField, List.lookup]

@[simp] theorem toDTO_upstream (P : ApiKeyPolicy) :
    (toDTO P).getField "upstream-base-url" = .vstr (jsTrim P.upstreamBaseUrl) := by
  simp [toDTO, JsValue.getField, List.lookup]

@[simp] theorem toDTO_excluded (P : ApiKeyPolicy) :
    (toDTO P).getField "excluded-models" = .varr (P.excludedModels.map JsValue.vstr) := by
  simp [toDTO, JsValue.getField, List.lookup]

@[simp] theorem toDTO_allow (P : ApiKeyPolicy) :
    (toDTO P).getField "allow-claude-opus-4-6" = .vbool P.allowClaudeOpus46 := by
  simp [toDTO, JsValue.getField, List.lookup]

@[simp] theorem toDTO_daily (P : ApiKeyPolicy) :
    (toDTO P).getField "daily-limits" =
      .vobj (P.dailyLimits.map (fun e => (e.1, JsValue.vnum e.2))) := by
  simp [toDTO, JsValue.getField, List.lookup]

@[simp] theorem toDTO_routing (P : ApiKeyPolicy) :
    (toDTO P).getField "model-routing" =
      .vobj [("rules", .varr ((P.modelRoutingRules.map routingRuleToDTO).filter
        dtoRuleKept))] := by
  simp [toDTO, JsValue.getField, List.lookup]

@[simp] theorem toDTO_failover (P : ApiKeyPolicy) :
    (toDTO P).getField "failover" =
      .vobj [("claude", .vobj
        [("enabled", .vbool P.claudeFailoverEnabled),
         ("target-model", .vstr (jsTrim P.claudeFailoverTargetModel)),
         ("rules", .varr ((P.claudeFailoverRules.map failoverRuleToDTO).filter
            dtoRuleKept))])] := by
  simp [toDTO, JsValue.getField, List.lookup]

@[simp] theorem toDTO_isPlainObject (P : ApiKeyPolicy) :
    (toDTO P).isPlainObject = true := by
  simp [toDTO, JsValue.isPlainObject]

/-- C1 counterexample: for the policy `c1P` (whose rule lists are empty,
hence well-formed), `toDTO (normalizePolicy (toDTO c1P))` differs from
`toDTO c1P`: the wire `excluded-models` changes from `[" a "]` to `["a"]`.
So one serialize-then-normalize pass is not a fixed point of serialization
for every policy with well-formed rules. -/
theorem roundtrip_counterexample :
    (normalizePolicy (toDTO c1P)).map toDTO ≠ some (toDTO c1P) := by
  intro h
  have h1 : normalizePolicy (toDTO c1P) = some c1Q := by decide
  rw [h1] at h
  simp only [Option.map] at h
  injection h with h
  have h3 := congrArg (fun v => v.getField "excluded-models") h
  simp [c1P, c1Q] at h3

theorem clampPercentDTO_finite (q : ℚ) :
    clampPercentDTO (.finite q) = .finite ((max (min ⌊q⌋ 100) 0 : ℤ) : ℚ) := by
  simp only [clampPercentDTO, JsNum.floor, JsNum.minC, JsNum.maxC, JsNum.finite.injEq]
  push_cast
  rfl

theorem clampStickyDTO_finite (q : ℚ) :
    clampStickyDTO (.finite q) = .finite ((max ⌊q⌋ 1 : ℤ) : ℚ) := by
  simp only [clampStickyDTO, JsNum.floor, JsNum.maxC, JsNum.finite.injEq]
  push_cast
  rfl

theorem clampPercentDTO_idem (p : JsNum) :
    clampPercentDTO (clampPercentDTO p) = clampPercentDTO p := by
  rcases p with q | _ | _ | _
  · rw [clampPercentDTO_finite, clampPercentDTO_finite, Int.floor_intCast]
    congr 1
    norm_cast
    omega
  · rfl
  · show clampPercentDTO (.finite 100) = .finite 100
    rw [clampPercentDTO_finite]
    norm_num
  · show clampPercentDTO (.finite 0) = .finite 0
    rw [clampPercentDTO_finite]
    norm_num

theorem clampStickyDTO_idem (s : JsNum) :
    clampStickyDTO (clampStickyDTO s) = clampStickyDTO s := by
  rcases s with q | _ | _ | _
  · rw [clampStickyDTO_finite, clampStickyDTO_finite, Int.floor_intCast]
    congr 1
    norm_cast
    omega
  · rfl
  · rfl
  · show clampStickyDTO (.finite 1) = .finite 1
    rw [clampStickyDTO_finite]
    norm_num

theorem parseFailoverRule_dto (r : ModelFailoverRule) :
    parseFailoverRule (failoverRuleToDTO r) = canonFailoverRule r := by
  unfold parseFailoverRule canonFailoverRule
  rw [if_neg (by simp [JsValue.isPlainObject, failoverRuleToDTO])]
  rw [failoverRuleToDTO_from, failoverRuleToDTO_target]
  simp only [strOfNullish_vstr, jsTrim_idem]

theorem parseRoutingRule_dto (r : ModelRoutingRule)
    (hp : r.targetPercent.isFinite = true)
    (hs : r.stickyWindowSeconds.isFinite = true) :
    parseRoutingRule (routingRuleToDTO r) = canonRoutingRule r := by
  rcases hq : r.targetPercent with q | _ | _ | _ <;> rw [hq] at hp <;>
    try exact absurd hp (by decide)
  rcases hw : r.stickyWindowSeconds with w | _ | _ | _ <;> rw [hw] at hs <;>
    try exact absurd hs (by decide)
  have hcp : clampPercentDTO r.targetPercent =
      .finite ((max (min ⌊q⌋ 100) 0 : ℤ) : ℚ) := by
    rw [hq, clampPercentDTO_finite]
  have hcs : clampStickyDTO r.stickyWindowSeconds =
      .finite ((max ⌊w⌋ 1 : ℤ) : ℚ) := by
    rw [hw, clampStickyDTO_finite]
  have hgt : (JsNum.finite ((max ⌊w⌋ 1 : ℤ) : ℚ)).gtZero = true := by
    simp only [JsNum.gtZero, decide_eq_true_eq]
    exact_mod_cast (show (0 : ℤ) < max ⌊w⌋ 1 by omega)
  have hid1 : ((JsNum.finite ((max (min ⌊q⌋ 100) 0 : ℤ) : ℚ)).floor.minC 100).maxC 0 =
      JsNum.finite ((max (min ⌊q⌋ 100) 0 : ℤ) : ℚ) := by
    show clampPercentDTO _ = _
    rw [← clampPercentDTO_finite, clampPercentDTO_idem, clampPercentDTO_finite]
  have hid2 : (JsNum.finite ((max ⌊w⌋ 1 : ℤ) : ℚ)).floor =
      JsNum.finite ((max ⌊w⌋ 1 : ℤ) : ℚ) := by
    simp only [JsNum.floor, Int.floor_intCast]
  unfold parseRoutingRule canonRoutingRule
  rw [if_neg (by simp [JsValue.isPlainObject, routingRuleToDTO])]
  rw [routingRuleToDTO_from, routingRuleToDTO_target, routingRuleToDTO_enabled,
      routingRuleToDTO_percent, routingRuleToDTO_sticky]
  simp only [strOfNullish_vstr, jsTrim_idem, coerceNumNC_vnum, boolOrTrue_vbool]
  rw [hcp, hcs]
  by_cases hname : jsTrim r.fromModel = "" ∨ jsTrim r.targetModel = ""
  · rw [if_pos hname, if_pos hname]
  · rw [if_neg hname, if_neg hname]
    rw [if_pos (show (JsNum.finite ((max (min ⌊q⌋ 100) 0 : ℤ) : ℚ)).isFinite = true
          from rfl)]
    rw [if_pos ⟨(show (JsNum.finite ((max ⌊w⌋ 1 : ℤ) : ℚ)).isFinite = true from rfl),
          hgt⟩]
    rw [hid1, hid2]

theorem canonFailoverRule_none {r : ModelFailoverRule}
    (hk : dtoRuleKept (failoverRuleToDTO r) = false) : canonFailoverRule r = none := by
  unfold canonFailoverRule
  rw [dtoRuleKept_failover] at hk
  rw [if_pos]
  rcases Bool.and_eq_false_iff.mp hk with h | h
  · exact Or.inl ((String.isEmpty_iff _).mp (by simpa using h))
  · exact Or.inr ((String.isEmpty_iff _).mp (by simpa using h))

theorem canonRoutingRule_none {r : ModelRoutingRule}
    (hk : dtoRuleKept (routingRuleToDTO r) = false) : canonRoutingRule r = none := by
  unfold canonRoutingRule
  rw [dtoRuleKept_routing] at hk
  rw [if_pos]
  rcases Bool.and_eq_false_iff.mp hk with h | h
  · exact Or.inl ((String.isEmpty_iff _).mp (by simpa using h))
  · exact Or.inr ((String.isEmpty_iff _).mp (by simpa using h))

theorem parse_failover_dto_list (l : List ModelFailoverRule) :
    ((l.map failoverRuleToDTO).filter dtoRuleKept).filterMap parseFailoverRule =
      l.filterMap canonFailoverRule := by
  induction l with
  | nil => rfl
  | cons r t ih =>
    rw [List.map_cons, List.filter_cons]
    by_cases hk : dtoRuleKept (failoverRuleToDTO r) = true
    · rw [if_pos hk, List.filterMap_cons, List.filterMap_cons, parseFailoverRule_dto, ih]
    · have hk' : dtoRuleKept (failoverRuleToDTO r) = false := by
        cases h : dtoRuleKept (failoverRuleToDTO r)
        · rfl
        · exact absurd h hk
      rw [if_neg hk, ih, List.filterMap_cons, canonFailoverRule_none hk']

theorem parse_routing_dto_list (l : List ModelRoutingRule)
    (hwf : ∀ r ∈ l, r.targetPercent.isFinite = true ∧
      r.stickyWindowSeconds.isFinite = true) :
    ((l.map routingRuleToDTO).filter dtoRuleKept).filterMap parseRoutingRule =
      l.filterMap canonRoutingRule := by
  induction l with
  | nil => rfl
  | cons r t ih =>
    have hr := hwf r (List.mem_cons_self _ _)
    have ht : ∀ r' ∈ t, r'.targetPercent.isFinite = true ∧
        r'.stickyWindowSeconds.isFinite = true :=
      fun r' hr' => hwf r' (List.mem_cons_of_mem _ hr')
    rw [List.map_cons, List.filter_cons]
    by_cases hk : dtoRuleKept (routingRuleToDTO r) = true
    · rw [if_pos hk, List.filterMap_cons, List.filterMap_cons,
          parseRoutingRule_dto r hr.1 hr.2, ih ht]
    · have hk' : dtoRuleKept (routingRuleToDTO r) = false := by
        cases h : dtoRuleKept (routingRuleToDTO r)
        · rfl
        · exact absurd h hk
      rw [if_neg hk, ih ht, List.filterMap_cons, canonRoutingRule_none hk']

theorem normalizeExcluded_wf (ex : List String)
    (h : ∀ m ∈ ex, jsTrim m = m ∧ m ≠ "") :
    normalizeExcluded (.varr (ex.map .vstr)) = ex := by
  unfold normalizeExcluded
  induction ex with
  | nil => rfl
  | cons m t ih =>
    have hm := h m (List.mem_cons_self _ _)
    have ht := fun m' hm' => h m' (List.mem_cons_of_mem _ hm')
    simp only [List.map_cons, List.filter_cons]
    rw [show jsToString (JsValue.vstr m) = m from rfl, hm.1,
        if_pos (by simpa [str_isEmpty_false_iff] using hm.2)]
    have := ih ht
    simp only at this
    rw [this]

theorem foldl_dailyLimit_canon (dl : List (String × JsNum)) :
    ∀ acc : List (String × JsNum),
      (∀ kv ∈ dl, jsToLower (jsTrim kv.1) = kv.1 ∧ kv.1 ≠ "" ∧
        kv.2.isFinite = true ∧ kv.2.gtZero = true ∧ kv.2.floor = kv.2) →
      (acc.map Prod.fst ++ dl.map Prod.fst).Nodup →
      List.foldl dailyLimitStep acc (dl.map (fun e => (e.1, JsValue.vnum e.2))) =
        acc ++ dl := by
  induction dl with
  | nil =>
    intro acc _ _
    simp
  | cons kv t ih =>
    intro acc hwf hnd
    have hk := hwf kv (List.mem_cons_self _ _)
    have hfresh : kv.1 ∉ acc.map Prod.fst := by
      have h3 := List.nodup_append.mp hnd
      intro hc
      exact h3.2.2 hc (List.mem_cons_self _ _)
    rw [List.map_cons, List.foldl_cons]
    have hstep : dailyLimitStep acc (kv.1, JsValue.vnum kv.2) = acc ++ [kv] := by
      unfold dailyLimitStep
      simp only
      rw [show coerceNum (JsValue.vnum kv.2) = kv.2 from rfl, hk.1]
      rw [if_pos ⟨hk.2.1, hk.2.2.1, hk.2.2.2.1⟩, hk.2.2.2.2]
      exact objInsert_of_fresh _ hfresh
    have hnd' : ((acc ++ [kv]).map Prod.fst ++ t.map Prod.fst).Nodup := by
      simpa [List.map_append, List.append_assoc] using hnd
    rw [hstep, ih (acc ++ [kv])
      (fun kv' h' => hwf kv' (List.mem_cons_of_mem _ h')) hnd']
    simp

theorem buildDailyLimits_canon (dl : List (String × JsNum))
    (hnd : (dl.map Prod.fst).Nodup)
    (hwf : ∀ kv ∈ dl, jsToLower (jsTrim kv.1) = kv.1 ∧ kv.1 ≠ "" ∧
      kv.2.isFinite = true ∧ kv.2.gtZero = true ∧ kv.2.floor = kv.2) :
    buildDailyLimits (dl.map (fun e => (e.1, JsValue.vnum e.2))) = dl := by
  unfold buildDailyLimits
  rw [foldl_dailyLimit_canon dl [] hwf (by simpa using hnd)]
  simp

theorem normalizeFailover_dto (P : ApiKeyPolicy) :
    normalizeFailover ((toDTO P).getField "failover") =
      (P.claudeFailoverEnabled, jsTrim P.claudeFailoverTargetModel,
       P.claudeFailoverRules.filterMap canonFailoverRule) := by
  rw [toDTO_failover]
  unfold normalizeFailover
  simp only [JsValue.isPlainObject]
  rw [if_pos trivial]
  simp [JsValue.getField, List.lookup, JsValue.isPlainObject, jsTrim_idem,
        parse_failover_dto_list]

theorem normalizeRouting_dto (P : ApiKeyPolicy)
    (hwf : ∀ r ∈ P.modelRoutingRules, r.targetPercent.isFinite = true ∧
      r.stickyWindowSeconds.isFinite = true) :
    normalizeRouting ((toDTO P).getField "model-routing") =
      P.modelRoutingRules.filterMap canonRoutingRule := by
  rw [toDTO_routing]
  unfold normalizeRouting
  simp only [JsValue.isPlainObject]
  rw [if_pos trivial]
  simp only [JsValue.getField, List.lookup]
  simp [parse_routing_dto_list _ hwf]

theorem normalize_toDTO (P : ApiKeyPolicy) (h : WfPolicy P) :
    normalizePolicy (toDTO P) = some (canonPolicy P) := by
  unfold normalizePolicy
  rw [if_neg (by simp)]
  simp only [toDTO_apiKey, toDTO_upstream, toDTO_excluded, toDTO_allow, toDTO_daily,
             strOfNullish_vstr]
  rw [h.apiKey_trimmed, if_neg h.apiKey_ne]
  rw [normalizeFailover_dto, normalizeRouting_dto P h.routing_wf]
  rw [normalizeExcluded_wf _ h.excluded_wf]
  rw [buildDailyLimits_canon _ h.daily_keys_nodup h.daily_wf]
  rw [if_neg h.failover_target]
  unfold canonPolicy
  simp [jsToString, jsTrim_idem, boolOrTrue_vbool]

theorem map_dto_canon_failover (l : List ModelFailoverRule) :
    ((l.filterMap canonFailoverRule).map failoverRuleToDTO).filter dtoRuleKept =
      (l.map failoverRuleToDTO).filter dtoRuleKept := by
  induction l with
  | nil => rfl
  | cons r t ih =>
    rw [List.map_cons, List.filter_cons, List.filterMap_cons]
    by_cases hk : dtoRuleKept (failoverRuleToDTO r) = true
    · have h1 : canonFailoverRule r = some ⟨jsTrim r.fromModel, jsTrim r.targetModel⟩ := by
        unfold canonFailoverRule
        rw [if_neg]
        rw [dtoRuleKept_failover] at hk
        simp only [Bool.and_eq_true] at hk
        rintro (hc | hc)
        · rw [hc] at hk
          exact absurd hk.1 (by decide)
        · rw [hc] at hk
          exact absurd hk.2 (by decide)
      have h2 : failoverRuleToDTO ⟨jsTrim r.fromModel, jsTrim r.targetModel⟩ =
          failoverRuleToDTO r := by
        unfold failoverRuleToDTO
        simp [jsTrim_idem]
      rw [if_pos hk, h1, List.map_cons, List.filter_cons, h2, if_pos hk, ih]
    · have hk' : dtoRuleKept (failoverRuleToDTO r) = false := by
        cases hb : dtoRuleKept (failoverRuleToDTO r)
        · rfl
        · exact absurd hb hk
      rw [if_neg hk, canonFailoverRule_none hk', ih]

theorem map_dto_canon_routing (l : List ModelRoutingRule) :
    ((l.filterMap canonRoutingRule).map routingRuleToDTO).filter dtoRuleKept =
      (l.map routingRuleToDTO).filter dtoRuleKept := by
  induction l with
  | nil => rfl
  | cons r t ih =>
    rw [List.map_cons, List.filter_cons, List.filterMap_cons]
    by_cases hk : dtoRuleKept (routingRuleToDTO r) = true
    · have h1 : canonRoutingRule r =
          some ⟨r.enabled, jsTrim r.fromModel, jsTrim r.targetModel,
                clampPercentDTO r.targetPercent, clampStickyDTO r.stickyWindowSeconds⟩ := by
        unfold canonRoutingRule
        rw [if_neg]
        rw [dtoRuleKept_routing] at hk
        simp only [Bool.and_eq_true] at hk
        rintro (hc | hc)
        · rw [hc] at hk
          exact absurd hk.1 (by decide)
        · rw [hc] at hk
          exact absurd hk.2 (by decide)
      have h2 : routingRuleToDTO ⟨r.enabled, jsTrim r.fromModel, jsTrim r.targetModel,
          clampPercentDTO r.targetPercent, clampStickyDTO r.stickyWindowSeconds⟩ =
          routingRuleToDTO r := by
        unfold routingRuleToDTO
        simp [jsTrim_idem, clampPercentDTO_idem, clampStickyDTO_idem]
      rw [if_pos hk, h1, List.map_cons, List.filter_cons, h2, if_pos hk, ih]
    · have hk' : dtoRuleKept (routingRuleToDTO r) = false := by
        cases hb : dtoRuleKept (routingRuleToDTO r)
        · rfl
        · exact absurd hb hk
      rw [if_neg hk, canonRoutingRule_none hk', ih]

theorem toDTO_canon (P : ApiKeyPolicy) : toDTO (canonPolicy P) = toDTO P := by
  unfold toDTO canonPolicy
  simp only [jsTrim_idem, map_dto_canon_failover, map_dto_canon_routing]

/-- C1 (amended): one serialize–normalize pass is a fixed point of
serialization for every policy `P` that is well-formed in the sense of
`WfPolicy`: trimmed non-empty `apiKey`, trimmed non-empty excluded models,
`dailyLimits` a genuine record of normalized keys mapping to positive
integers, no enabled failover with a blank target, and routing rules with
finite numeric fields.  The untrimmed excluded-model counterexample shows
the extra hypotheses beyond "well-formed rules" are necessary. -/
theorem roundtrip_wf (P : ApiKeyPolicy) (h : WfPolicy P) :
    (normalizePolicy (toDTO P)).map toDTO = some (toDTO P) := by
  rw [normalize_toDTO P h]
  simp only [Option.map]
  rw [toDTO_canon]

theorem roundtrip_wf_witness :
    (normalizePolicy (toDTO c1wfP)).map toDTO = some (toDTO c1wfP) :=
  roundtrip_wf c1wfP
    ⟨by decide, by decide, by decide, by decide, by decide, by decide, by decide⟩
